import Mathlib

/-!
Verification development for the knowledge-base ingestion engine,
`src/knbase/state_machine` (the draft the spec follows: machine.py,
task_model.py, resource_model.py, knowledge_base_model.py, types.py).

Shallow embedding conventions:
* SQLite rows become Lean structures held in lists (table order = row order);
  `INTEGER PRIMARY KEY` columns are allocated from `next*Id` counters.
* Python `bytes` hashes, string ids, paths, content types and JSON metas are
  encoded as `Nat` (only equality of these values matters to the code).
* `int(time() * 1000)` timestamps are drawn from a monotonic `clock` counter
  in the database state (a refinement: the source clock is monotone too, and
  ties are broken by id exactly as the code sorts).
* fallible calls return `Except Err _`; Python `assert` failures map to
  `Err.assertFail`, `TypeError` to `Err.typeErr`, and so on.
* the `sqlite3` transaction of each public call either commits wholly or is
  rolled back; operations below model the committed result.  For
  `complete_preproc_task` a `commitOk` flag additionally models whether the
  final `conn.commit()` succeeds, because the in-memory queues are mutated
  before the commit point (rollback does not undo them).
* module dispatch (`StateMachine._preprocess_modules` /
  `StateMachine._index_modules`, i.e. the ids declared by the base's resource
  module filtered through the registered-modules dictionary) is embedded as
  the opaque-to-the-machine environment functions of `Env`.

The `DocumentModel` used by machine.py (`state_machine/document_model.py`) is
not present under src/; its operations are modelled from the spec and carry
doc comments beginning with "Modelled from the spec:".

Note on an inter-file skew in the source: `TaskModel.create_index_task`
declares a required `preproc_module` parameter, but no caller in the
repository supplies it — neither machine.py (lines 344, 489) nor the
repository's own test `tests/test_state_machine_model.py` (lines 497, 505),
which asserts that such calls succeed.  Following the callers and tests, the
embedding records the preprocessing module of the document being indexed,
matching the `index_tasks.preproc_module` column of the schema.
-/

/-- State of `StateMachineState` (machine.py). -/
inductive SMState where
  | SETTING
  | SCANNING
  | PROCESSING
deriving DecidableEq, Repr

/-- Operation of `IndexTaskOperation` (task_model.py). -/
inductive IndexOp where
  | CREATE
  | REMOVE
deriving DecidableEq, Repr

/-- Errors surfaced by the embedded operations. -/
inductive Err where
  /-- a Python `assert` failed -/
  | assertFail
  /-- a Python `TypeError` was raised -/
  | typeErr
  /-- a Python `ValueError` was raised -/
  | valueErr
  /-- a looked-up row was unexpectedly absent (AttributeError on None in Python) -/
  | missingRow
  /-- the final conn.commit() of a transaction raised a database error -/
  | dbErr
deriving DecidableEq, Repr

/-- Row of the `knbases` table (knowledge_base_model.py). -/
structure KBRow where
  id : Nat
  resourceModule : Nat
  resourceParams : Nat
deriving DecidableEq, Repr

/-- Row of the `resources` table (resource_model.py); primary key `(base, rid)`. -/
structure ResourceRow where
  base : Nat
  rid : Nat
  hash : Nat
  contentType : Nat
  meta : Nat
  updatedAt : Nat
deriving DecidableEq, Repr

/-- Row of the `documents` table.  Modelled from the spec:
`documents(id, preproc_module, base, res_hash, doc_hash, path, meta_json)`;
document identity is `(preproc_module, base, doc_hash)`. -/
structure DocRow where
  id : Nat
  preprocModule : Nat
  base : Nat
  resHash : Nat
  docHash : Nat
  path : Nat
  meta : Nat
deriving DecidableEq, Repr

/-- Row of the `document_refs` table.  Modelled from the spec:
`document_refs(id, preproc_module, base, res_hash, doc_hash, ref -> documents.id)`;
it records which (base, resource-hash) owns a reference to the document. -/
structure DocRefRow where
  id : Nat
  preprocModule : Nat
  base : Nat
  resHash : Nat
  docHash : Nat
  ref : Nat
deriving DecidableEq, Repr

/-- Row of the `preproc_tasks` table (task_model.py).  `eventId` is the
`event` column; `fromResHash`/`fromResContentType` are the nullable
`from_res_hash`/`from_res_content_type` columns. -/
structure PreprocTaskRow where
  id : Nat
  preprocModule : Nat
  base : Nat
  resHash : Nat
  fromResHash : Option Nat
  fromResContentType : Option Nat
  eventId : Nat
  path : Nat
  contentType : Nat
  createdAt : Nat
deriving DecidableEq, Repr

/-- Row of the `index_tasks` table (task_model.py). -/
structure IndexTaskRow where
  id : Nat
  preprocModule : Nat
  indexModule : Nat
  base : Nat
  document : Nat
  operation : IndexOp
  eventId : Nat
  createdAt : Nat
deriving DecidableEq, Repr

/-- The persisted database state (the framework sqlite file). -/
structure DB where
  knbases : List KBRow
  resources : List ResourceRow
  documents : List DocRow
  documentRefs : List DocRefRow
  preprocTasks : List PreprocTaskRow
  indexTasks : List IndexTaskRow
  nextKbId : Nat
  nextDocId : Nat
  nextDocRefId : Nat
  nextPreprocTaskId : Nat
  nextIndexTaskId : Nat
  clock : Nat
deriving DecidableEq, Repr

/-- Module wiring seen by the machine: `_preprocess_modules(base, content_type)`
and `_index_modules(base)` of machine.py (the ids declared by the base's
resource module, filtered through the registered modules dictionary). -/
structure Env where
  preprocessModuleIds : Nat → Nat → List Nat
  indexModuleIds : Nat → List Nat

/-- Insertion of an element into a list, before the first element it compares
below-or-equal to.  Helper of `insertionSortBy`. -/
def insertSorted {α : Type} (le : α → α → Bool) (a : α) : List α → List α
  | [] => [a]
  | b :: bs => if le a b then a :: b :: bs else b :: insertSorted le a bs

/-- Structurally-recursive sort used to embed Python's `list.sort(key=...)`
and the SQL ORDER BY clauses: the comparison keys at every use site are
injective (they include a primary-key column), so any sorting algorithm gives
the same list. -/
def insertionSortBy {α : Type} (le : α → α → Bool) : List α → List α
  | [] => []
  | a :: as => insertSorted le a (insertionSortBy le as)

namespace ResourceModel

/-- ResourceModel.get_resource: row of `(base, rid)` if any. -/
def get_resource (db : DB) (base rid : Nat) : Option ResourceRow :=
  db.resources.find? (fun r => r.base = base ∧ r.rid = rid)

/-- ResourceModel.count_resources: COUNT of rows with `(base, hash)`. -/
def count_resources (db : DB) (base hash : Nat) : Nat :=
  (db.resources.filter (fun r => r.base = base ∧ r.hash = hash)).length

/-- ResourceModel.get_resources: rows with `(base, hash)`, ORDER BY updated_at DESC. -/
def get_resources (db : DB) (base hash : Nat) : List ResourceRow :=
  insertionSortBy (fun a b => b.updatedAt ≤ a.updatedAt)
    (db.resources.filter (fun r => r.base = base ∧ r.hash = hash))

/-- ResourceModel.save_resource: INSERT the row. -/
def save_resource (db : DB) (r : ResourceRow) : DB :=
  { db with resources := db.resources ++ [r] }

/-- ResourceModel.update_resource: UPDATE hash, content_type, meta, updated_at
of the row keyed `(base, rid)`.  machine.py always passes all four values, so
the None-defaults of the source (which fall back to the origin row's fields)
are not exercised and are elided here. -/
def update_resource (db : DB) (origin : ResourceRow)
    (hash contentType meta updatedAt : Nat) : DB :=
  { db with resources := db.resources.map (fun r =>
      if r.base = origin.base ∧ r.rid = origin.rid then
        { r with hash := hash, contentType := contentType,
                 meta := meta, updatedAt := updatedAt }
      else r) }

/-- ResourceModel.remove_resource: DELETE the row keyed `(base, rid)`. -/
def remove_resource (db : DB) (base rid : Nat) : DB :=
  { db with resources :=
      db.resources.filter (fun r => ¬ (r.base = base ∧ r.rid = rid)) }

/-- Modelled from the spec: `list_resource_hashes(base)` — the method is called
by machine.py (clean_resources) but absent from resource_model.py under src/.
It lists each live resource hash of the base (distinct, in first-occurrence
order). -/
def list_resource_hashes (db : DB) (base : Nat) : List Nat :=
  ((db.resources.filter (fun r => r.base = base)).map (fun r => r.hash)).dedup

/-- Modelled from the spec: `remove_resources(base)` — called by machine.py
(clean_resources) but absent from resource_model.py under src/.  It deletes
all resource rows of the base. -/
def remove_resources (db : DB) (base : Nat) : DB :=
  { db with resources := db.resources.filter (fun r => ¬ r.base = base) }

end ResourceModel

namespace DocumentModel

/-- Modelled from the spec: `get_document(base, id)` — document_model.py is
absent from src/.  Looks up the document row of the base by id. -/
def get_document (db : DB) (base id : Nat) : Option DocRow :=
  db.documents.find? (fun d => d.base = base ∧ d.id = id)

/-- Modelled from the spec: `append_document` — document identity is
`(preproc_module, base, document_hash)`; if a document with this identity
already exists, an additional document_ref row is added rather than a
duplicate document row; otherwise a fresh document row plus its first
document_ref row are inserted.  Returns the (existing or new) document. -/
def append_document (db : DB) (preprocModule base resHash docHash path meta : Nat) :
    DB × DocRow :=
  match db.documents.find?
      (fun d => d.preprocModule = preprocModule ∧ d.base = base ∧ d.docHash = docHash) with
  | some d =>
      ({ db with
          documentRefs := db.documentRefs ++
            [{ id := db.nextDocRefId, preprocModule := preprocModule, base := base,
               resHash := resHash, docHash := docHash, ref := d.id }],
          nextDocRefId := db.nextDocRefId + 1 }, d)
  | none =>
      let d : DocRow :=
        { id := db.nextDocId, preprocModule := preprocModule, base := base,
          resHash := resHash, docHash := docHash, path := path, meta := meta }
      ({ db with
          documents := db.documents ++ [d],
          documentRefs := db.documentRefs ++
            [{ id := db.nextDocRefId, preprocModule := preprocModule, base := base,
               resHash := resHash, docHash := docHash, ref := d.id }],
          nextDocId := db.nextDocId + 1,
          nextDocRefId := db.nextDocRefId + 1 }, d)

/-- Modelled from the spec: `get_documents(preprocessing_module, base,
resource_hash)` — collects the documents owning a document_refs row keyed by
`(preproc_module, base, resource_hash)` (a document reference row records
which (base, resource-hash) owns a reference to the document). -/
def get_documents (db : DB) (preprocModule base resHash : Nat) : List DocRow :=
  db.documents.filter (fun d => db.documentRefs.any (fun r =>
    r.preprocModule = preprocModule ∧ r.base = base ∧ r.resHash = resHash ∧ r.ref = d.id))

/-- Modelled from the spec: `remove_references_from_resource` — deletes the
document_refs rows keyed by `(preproc_module, base, resource_hash)`. -/
def remove_references_from_resource (db : DB) (preprocModule base resHash : Nat) : DB :=
  { db with documentRefs := db.documentRefs.filter (fun r =>
      ¬ (r.preprocModule = preprocModule ∧ r.base = base ∧ r.resHash = resHash)) }

/-- Modelled from the spec: `get_document_refs_count(document)` — number of
document_refs rows referring to the document. -/
def get_document_refs_count (db : DB) (d : DocRow) : Nat :=
  (db.documentRefs.filter (fun r => r.ref = d.id)).length

/-- Modelled from the spec: `remove_document(document)` — deletes the
document row. -/
def remove_document (db : DB) (d : DocRow) : DB :=
  { db with documents := db.documents.filter (fun x => ¬ x.id = d.id) }

end DocumentModel

namespace TaskModel

/-- TaskModel.get_preproc_task: row of `(base, id)` if any. -/
def get_preproc_task (db : DB) (base taskId : Nat) : Option PreprocTaskRow :=
  db.preprocTasks.find? (fun t => t.base = base ∧ t.id = taskId)

/-- TaskModel.get_index_task: row of `(base, id)` if any. -/
def get_index_task (db : DB) (base taskId : Nat) : Option IndexTaskRow :=
  db.indexTasks.find? (fun t => t.base = base ∧ t.id = taskId)

/-- TaskModel.get_preproc_tasks with `resource_hash=None`: rows of the base.
The SQL `ORDER BY created_at, id DESC` is irrelevant at every use site (the
rows are re-sorted by `StateMachine._load_tasks`), so table order is kept. -/
def get_preproc_tasks (db : DB) (base : Nat) : List PreprocTaskRow :=
  db.preprocTasks.filter (fun t => t.base = base)

/-- TaskModel.get_preproc_tasks with a `resource_hash`: rows of
`(base, res_hash)`.  The use site (`_submit_resource_hash_created`) deletes
every returned row, so the SQL ordering is irrelevant and table order kept. -/
def get_preproc_tasks_of_hash (db : DB) (base resHash : Nat) : List PreprocTaskRow :=
  db.preprocTasks.filter (fun t => t.base = base ∧ t.resHash = resHash)

/-- TaskModel.get_index_tasks: rows of the base (re-sorted by the caller,
table order kept as for get_preproc_tasks). -/
def get_index_tasks (db : DB) (base : Nat) : List IndexTaskRow :=
  db.indexTasks.filter (fun t => t.base = base)

/-- TaskModel.get_index_tasks_of_document: rows with
`(knbase, index_module, document)` matching, in table order (the SQL query
has no ORDER BY). -/
def get_index_tasks_of_document (db : DB) (indexModule : Nat) (d : DocRow) :
    List IndexTaskRow :=
  db.indexTasks.filter (fun t =>
    t.base = d.base ∧ t.indexModule = indexModule ∧ t.document = d.id)

/-- TaskModel.create_preproc_task: INSERT a row with a fresh id and the
current clock as created_at; returns the row. -/
def create_preproc_task (db : DB) (eventId preprocModule base resHash : Nat)
    (fromRes : Option (Nat × Nat)) (path contentType : Nat) :
    DB × PreprocTaskRow :=
  let t : PreprocTaskRow :=
    { id := db.nextPreprocTaskId, preprocModule := preprocModule, base := base,
      resHash := resHash,
      fromResHash := fromRes.map (fun p => p.1),
      fromResContentType := fromRes.map (fun p => p.2),
      eventId := eventId, path := path, contentType := contentType,
      createdAt := db.clock }
  ({ db with preprocTasks := db.preprocTasks ++ [t],
             nextPreprocTaskId := db.nextPreprocTaskId + 1,
             clock := db.clock + 1 }, t)

/-- TaskModel.create_index_task: INSERT a row with a fresh id and the current
clock as created_at; returns the row.  The source declares a required
`preproc_module` parameter that no caller in the repository supplies (see the
header note); following machine.py and the repository's tests, the document's
preprocessing module is recorded in the `preproc_module` column. -/
def create_index_task (db : DB) (eventId indexModule base : Nat) (d : DocRow)
    (operation : IndexOp) : DB × IndexTaskRow :=
  let t : IndexTaskRow :=
    { id := db.nextIndexTaskId, preprocModule := d.preprocModule,
      indexModule := indexModule, base := base, document := d.id,
      operation := operation, eventId := eventId, createdAt := db.clock }
  ({ db with indexTasks := db.indexTasks ++ [t],
             nextIndexTaskId := db.nextIndexTaskId + 1,
             clock := db.clock + 1 }, t)

/-- TaskModel.remove_preproc_task: DELETE the row by id. -/
def remove_preproc_task (db : DB) (t : PreprocTaskRow) : DB :=
  { db with preprocTasks := db.preprocTasks.filter (fun x => ¬ x.id = t.id) }

/-- TaskModel.remove_index_task: DELETE the row by id. -/
def remove_index_task (db : DB) (t : IndexTaskRow) : DB :=
  { db with indexTasks := db.indexTasks.filter (fun x => ¬ x.id = t.id) }

/-- TaskModel.count_resource_refs: COUNT of preproc_tasks rows of the base
with `res_hash = hash` plus COUNT of rows with `from_res_hash = hash` (two
separate counts, summed, as in the source loop over the two fields). -/
def count_resource_refs (db : DB) (base resHash : Nat) : Nat :=
  (db.preprocTasks.filter (fun t => t.base = base ∧ t.resHash = resHash)).length +
  (db.preprocTasks.filter (fun t => t.base = base ∧ t.fromResHash = some resHash)).length

/-- TaskModel.count_document_refs: COUNT of index_tasks rows with
`document = d.id` and `operation = CREATE` (no base filter, as in the SQL). -/
def count_document_refs (db : DB) (d : DocRow) : Nat :=
  (db.indexTasks.filter (fun t => t.document = d.id ∧ t.operation = IndexOp.CREATE)).length

end TaskModel

namespace KnowledgeBaseModel

/-- KnowledgeBaseModel.get_knowledge_bases: all rows. -/
def get_knowledge_bases (db : DB) : List KBRow :=
  db.knbases

/-- KnowledgeBaseModel.create_knowledge_base: INSERT a row with a fresh id.
machine.py passes only the resource module and params (the `records` of the
model signature have no caller-supplied value), so only those are recorded. -/
def create_knowledge_base (db : DB) (resourceModule resourceParams : Nat) :
    DB × KBRow :=
  let b : KBRow :=
    { id := db.nextKbId, resourceModule := resourceModule,
      resourceParams := resourceParams }
  ({ db with knbases := db.knbases ++ [b], nextKbId := db.nextKbId + 1 }, b)

/-- KnowledgeBaseModel.remove_knowledge_base: DELETE the row. -/
def remove_knowledge_base (db : DB) (base : Nat) : DB :=
  { db with knbases := db.knbases.filter (fun b => ¬ b.id = base) }

end KnowledgeBaseModel

/-- RemovedResourceEvent of types.py (the fields machine.py populates). -/
structure RemovedResourceEvent where
  protoEventId : Nat
  hash : Nat
  base : Nat
deriving DecidableEq, Repr

/-- In-memory state of a StateMachine object (machine.py __init__):
the persisted database plus the derived queues `_preproc_tasks` and
`_index_tasks`, the two pop counters, the `_removed_resource_events` list
and the lifecycle state. -/
structure Machine where
  db : DB
  preprocQueue : List PreprocTaskRow
  indexQueue : List IndexTaskRow
  preprocPopCount : Int
  indexPopCount : Int
  removedEvents : List RemovedResourceEvent
  state : SMState
deriving DecidableEq, Repr

/-- PreprocessingEvent of types.py as machine.py constructs it in
pop_preproc_event. -/
structure PreprocessingEvent where
  protoEventId : Nat
  taskId : Nat
  base : Nat
  moduleId : Nat
  resourceHash : Nat
  fromResourceHash : Option Nat
  resourceContentType : Nat
  resourcePath : Nat
  createdAt : Nat
deriving DecidableEq, Repr

/-- HandleIndexEvent as machine.py constructs it in pop_handle_index_event
(machine.py passes `module=task.index_module`; the types.py draft declares
separate preproc_module/index_module fields instead — another inter-draft
skew, resolved in favour of the constructing code). -/
structure HandleIndexEvent where
  protoEventId : Nat
  taskId : Nat
  base : Nat
  moduleId : Nat
  operation : IndexOp
  documentHash : Nat
  documentPath : Nat
  documentMeta : Nat
  createdAt : Nat
deriving DecidableEq, Repr

/-- DocumentDescription as machine.py and the repository's tests use it:
complete_preproc_task reads exactly `descr.hash`, `descr.path`, `descr.meta`
(the richer types.py draft differs; the constructing test pins these three). -/
structure DocumentDescription where
  hash : Nat
  path : Nat
  meta : Nat
deriving DecidableEq, Repr

namespace StateMachine

/-- FromResource reconstruction used throughout task_model.py row parsing:
a FromResource is materialised iff `from_res_hash` is non-NULL and
`from_res_content_type` is truthy (under the Nat encoding, present). -/
def taskFromResource (t : PreprocTaskRow) : Option (Nat × Nat) :=
  match t.fromResHash, t.fromResContentType with
  | some h, some ct => some (h, ct)
  | _, _ => none

/-- StateMachine._resource_hash_refs: live resource rows with the hash plus
preproc-task references to it. -/
def resource_hash_refs (db : DB) (base hash : Nat) : Nat :=
  ResourceModel.count_resources db base hash +
  TaskModel.count_resource_refs db base hash

/-- StateMachine._document_refs: document_refs rows of the document plus its
pending CREATE index tasks. -/
def document_refs (db : DB) (d : DocRow) : Nat :=
  DocumentModel.get_document_refs_count db d +
  TaskModel.count_document_refs db d

/-- Sort key of StateMachine._load_tasks for preproc tasks:
`(created_at, id)` ascending, lexicographic. -/
def preprocLe (a b : PreprocTaskRow) : Bool :=
  a.createdAt < b.createdAt || (a.createdAt == b.createdAt && a.id ≤ b.id)

/-- Sort key of StateMachine._load_tasks for index tasks:
`(created_at, id)` ascending, lexicographic. -/
def indexLe (a b : IndexTaskRow) : Bool :=
  a.createdAt < b.createdAt || (a.createdAt == b.createdAt && a.id ≤ b.id)

/-- StateMachine._load_tasks: gather the tasks of every knowledge base and
sort each list by `(created_at, id)`. -/
def load_tasks (db : DB) : List PreprocTaskRow × List IndexTaskRow :=
  (insertionSortBy preprocLe (db.knbases.flatMap (fun b => TaskModel.get_preproc_tasks db b.id)),
   insertionSortBy indexLe (db.knbases.flatMap (fun b => TaskModel.get_index_tasks db b.id)))

/-- StateMachine.__init__ on an existing database: queues are loaded from the
task tables; `_removed_resource_events` always starts empty (it is never
persisted); the state becomes PROCESSING iff a loaded queue is non-empty,
otherwise stays SETTING. -/
def init_machine (db : DB) : Machine :=
  let loaded := load_tasks db
  { db := db
    preprocQueue := loaded.1
    indexQueue := loaded.2
    preprocPopCount := 0
    indexPopCount := 0
    removedEvents := []
    state := if ¬ loaded.1 = [] ∨ ¬ loaded.2 = [] then SMState.PROCESSING
             else SMState.SETTING }

/-- StateMachine.goto_setting: no-op when already SETTING; otherwise asserts
`_assert_not_preprocessing` (both queues empty, both pop counters zero). -/
def goto_setting (m : Machine) : Except Err Machine :=
  if m.state = SMState.SETTING then .ok m
  else if m.preprocQueue = [] ∧ m.indexQueue = [] ∧
          m.preprocPopCount = 0 ∧ m.indexPopCount = 0 then
    .ok { m with state := SMState.SETTING }
  else .error Err.assertFail

/-- StateMachine.goto_scanning: no-op when already SCANNING; otherwise asserts
`_assert_not_preprocessing` (both queues empty, both pop counters zero). -/
def goto_scanning (m : Machine) : Except Err Machine :=
  if m.state = SMState.SCANNING then .ok m
  else if m.preprocQueue = [] ∧ m.indexQueue = [] ∧
          m.preprocPopCount = 0 ∧ m.indexPopCount = 0 then
    .ok { m with state := SMState.SCANNING }
  else .error Err.assertFail

/-- StateMachine.goto_processing: no-op when already PROCESSING; otherwise
reloads both queues from the database (pop counters are not reset). -/
def goto_processing (m : Machine) : Machine :=
  if m.state = SMState.PROCESSING then m
  else
    let loaded := load_tasks m.db
    { m with preprocQueue := loaded.1, indexQueue := loaded.2,
             state := SMState.PROCESSING }

/-- StateMachine.create_knowledge_base: SETTING only; inserts the row and
returns the new base. -/
def create_knowledge_base (m : Machine) (resourceModule resourceParams : Nat) :
    Except Err (KBRow × Machine) :=
  if ¬ m.state = SMState.SETTING then .error Err.assertFail
  else
    let created := KnowledgeBaseModel.create_knowledge_base m.db resourceModule resourceParams
    .ok (created.2, { m with db := created.1 })

/-- StateMachine.remove_knowledge_base (machine.py lines 116-131).  After the
SETTING assert and BEGIN TRANSACTION, the body evaluates the expression
`next()` — the builtin called with zero arguments — which unconditionally
raises TypeError before any other subexpression is evaluated; the
except-clause rolls the transaction back and re-raises.  The ValueError
branch and the row deletion are unreachable, so the call always fails with
TypeError and leaves the database unchanged. -/
def remove_knowledge_base (m : Machine) (_base : Nat) : Except Err Machine :=
  if ¬ m.state = SMState.SETTING then .error Err.assertFail
  else .error Err.typeErr

/-- Removal of the first queued removed-resource event with the given hash
(the enumerate/pop/break loop at the end of _submit_resource_hash_created). -/
def removeFirstWithHash : List RemovedResourceEvent → Nat → List RemovedResourceEvent
  | [], _ => []
  | e :: rest, h => if e.hash = h then rest else e :: removeFirstWithHash rest h

/-- StateMachine._submit_resource_hash_created: delete every preproc task
keyed on `(base, first_resource.hash)`; create one preproc task per
applicable preprocessing module (recording the from-resource hash and content
type when given) and append each to the in-memory queue; drop the first
queued removed-resource event carrying the same hash. -/
def submit_resource_hash_created (env : Env) (m : Machine) (eventId : Nat)
    (firstResource : ResourceRow) (fromResource : Option ResourceRow)
    (path contentType : Nat) : Machine :=
  let db0 := (TaskModel.get_preproc_tasks_of_hash m.db firstResource.base
      firstResource.hash).foldl (fun db t => TaskModel.remove_preproc_task db t) m.db
  let created := (env.preprocessModuleIds firstResource.base
      firstResource.contentType).foldl
    (fun (acc : DB × List PreprocTaskRow) pm =>
      let step := TaskModel.create_preproc_task acc.1 eventId pm
        firstResource.base firstResource.hash
        (fromResource.map (fun o => (o.hash, o.contentType))) path contentType
      (step.1, acc.2 ++ [step.2]))
    (db0, m.preprocQueue)
  { m with db := created.1, preprocQueue := created.2,
           removedEvents := removeFirstWithHash m.removedEvents firstResource.hash }

/-- Duplicate-dropping by document id for the `removed_documents_dict`
collection of _submit_resource_hash_removed (a Python dict keyed by id). -/
def dedupByIdAux (seen : List Nat) : List DocRow → List DocRow
  | [] => []
  | d :: rest =>
    if d.id ∈ seen then dedupByIdAux seen rest
    else d :: dedupByIdAux (d.id :: seen) rest

/-- Entry point of the id-keyed deduplication. -/
def dedupById (l : List DocRow) : List DocRow := dedupByIdAux [] l

/-- Collection phase of StateMachine._submit_resource_hash_removed: per
applicable preprocessing module, collect the documents referenced from
`(module, base, resource_hash)`, delete those reference rows, and record each
collected document whose total references are now zero; the recorded
documents are deduplicated by id (the Python dict) and sorted by id.  One
module's step is split out as collect_step. -/
def collect_step (base resHash : Nat) (acc : DB × List DocRow) (pm : Nat) :
    DB × List DocRow :=
  let docs := DocumentModel.get_documents acc.1 pm base resHash
  let db := DocumentModel.remove_references_from_resource acc.1 pm base resHash
  (db, acc.2 ++ docs.filter (fun d => document_refs db d = 0))

/-- Assembly of the collection phase over every applicable module. -/
def collect_removed_documents (env : Env) (db : DB)
    (base resHash resContentType : Nat) : DB × List DocRow :=
  let collected := (env.preprocessModuleIds base resContentType).foldl
    (collect_step base resHash) (db, [])
  (collected.1, insertionSortBy (fun a b => a.id ≤ b.id) (dedupById collected.2))

/-- One index-module step of the REMOVE-task creation loop of
_submit_resource_hash_removed: create the task and append it to the queue. -/
def create_remove_task_step (eventId base : Nat) (d : DocRow)
    (acc2 : DB × List IndexTaskRow) (im : Nat) : DB × List IndexTaskRow :=
  let step := TaskModel.create_index_task acc2.1 eventId im base d IndexOp.REMOVE
  (step.1, acc2.2 ++ [step.2])

/-- Per-document step of _submit_resource_hash_removed: with no index modules
the document is deleted outright; otherwise one REMOVE index task per index
module is created and queued. -/
def remove_or_create_remove_tasks (eventId base : Nat) (indexModules : List Nat)
    (acc : DB × List IndexTaskRow) (d : DocRow) : DB × List IndexTaskRow :=
  if indexModules = [] then
    (DocumentModel.remove_document acc.1 d, acc.2)
  else
    indexModules.foldl (create_remove_task_step eventId base d) acc

/-- StateMachine._submit_resource_hash_removed, assembled from the two phases
above, then enqueueing a RemovedResourceEvent unless one with the same hash
is already queued. -/
def submit_resource_hash_removed (env : Env) (m : Machine)
    (eventId base resHash resContentType : Nat) : Machine :=
  let col := collect_removed_documents env m.db base resHash resContentType
  let indexModules := env.indexModuleIds base
  let handled := col.2.foldl
    (remove_or_create_remove_tasks eventId base indexModules)
    (col.1, m.indexQueue)
  let events :=
    if m.removedEvents.all (fun e => ¬ e.hash = resHash) then
      m.removedEvents ++ [{ protoEventId := eventId, hash := resHash, base := base }]
    else m.removedEvents
  { m with db := handled.1, indexQueue := handled.2, removedEvents := events }

/-- StateMachine.put_resource: SCANNING only.  Records the hash's reference
count before mutation; inserts or updates the resource row; when an update
changed the hash and the old hash's references dropped to zero, submits
hash-removed for the old hash; when the new hash had zero references before
the call, submits hash-created (with the pre-existing row as from-resource). -/
def put_resource (env : Env) (m : Machine) (eventId : Nat)
    (resource : ResourceRow) (path : Nat) : Except Err Machine :=
  if ¬ m.state = SMState.SCANNING then .error Err.assertFail else
  let targetLastRefs := resource_hash_refs m.db resource.base resource.hash
  let origin := ResourceModel.get_resource m.db resource.base resource.rid
  let m1 :=
    match origin with
    | none => { m with db := ResourceModel.save_resource m.db resource }
    | some o =>
      let db' := ResourceModel.update_resource m.db o resource.hash
        resource.contentType resource.meta resource.updatedAt
      let m' := { m with db := db' }
      if ¬ resource.hash = o.hash ∧ resource_hash_refs db' resource.base o.hash = 0
      then submit_resource_hash_removed env m' eventId o.base o.hash o.contentType
      else m'
  if targetLastRefs = 0 then
    .ok (submit_resource_hash_created env m1 eventId resource origin path
      resource.contentType)
  else .ok m1

/-- StateMachine.remove_resource: SCANNING only.  Asserts the row exists,
deletes it, and submits hash-removed when the hash's reference count (live
rows plus preproc-task references) has dropped to zero. -/
def remove_resource (env : Env) (m : Machine) (eventId : Nat)
    (resource : ResourceRow) : Except Err Machine :=
  if ¬ m.state = SMState.SCANNING then .error Err.assertFail else
  match ResourceModel.get_resource m.db resource.base resource.rid with
  | none => .error Err.assertFail
  | some _ =>
    let db' := ResourceModel.remove_resource m.db resource.base resource.rid
    let m' := { m with db := db' }
    if resource_hash_refs db' resource.base resource.hash = 0 then
      .ok (submit_resource_hash_removed env m' eventId resource.base
        resource.hash resource.contentType)
    else .ok m'

/-- StateMachine.clean_resources: SETTING only.  Submits hash-removed for
every live resource hash of the base (taking the content type of the first
resource of the hash, most recently updated first), then deletes all resource
rows of the base and moves to PROCESSING. -/
def clean_resources (env : Env) (m : Machine) (eventId base : Nat) :
    Except Err Machine :=
  if ¬ m.state = SMState.SETTING then .error Err.assertFail else
  ((ResourceModel.list_resource_hashes m.db base).foldlM
    (fun (mm : Machine) h =>
      match ResourceModel.get_resources mm.db base h with
      | [] => Except.error Err.missingRow
      | r :: _ =>
        Except.ok (submit_resource_hash_removed env mm eventId base h r.contentType))
    m).map
    (fun (mm : Machine) =>
      { mm with db := ResourceModel.remove_resources mm.db base,
                state := SMState.PROCESSING })

/-- StateMachine.pop_preproc_event: PROCESSING only; pops the queue head (or
returns none), incrementing the preproc pop counter. -/
def pop_preproc_event (m : Machine) :
    Except Err (Option PreprocessingEvent × Machine) :=
  if ¬ m.state = SMState.PROCESSING then .error Err.assertFail else
  match m.preprocQueue with
  | [] => .ok (none, m)
  | t :: rest =>
    .ok (some { protoEventId := t.eventId, taskId := t.id, base := t.base,
                moduleId := t.preprocModule, resourceHash := t.resHash,
                fromResourceHash := (taskFromResource t).map (fun p => p.1),
                resourceContentType := t.contentType, resourcePath := t.path,
                createdAt := t.createdAt },
         { m with preprocQueue := rest,
                  preprocPopCount := m.preprocPopCount + 1 })

/-- StateMachine.pop_handle_index_event: PROCESSING only; pops the queue head
(or returns none), incrementing the index pop counter, and reads the task's
document row to build the event (a missing document crashes the source with
AttributeError on None; modelled as an error). -/
def pop_handle_index_event (m : Machine) :
    Except Err (Option HandleIndexEvent × Machine) :=
  if ¬ m.state = SMState.PROCESSING then .error Err.assertFail else
  match m.indexQueue with
  | [] => .ok (none, m)
  | t :: rest =>
    match DocumentModel.get_document m.db t.base t.document with
    | none => .error Err.missingRow
    | some d =>
      .ok (some { protoEventId := t.eventId, taskId := t.id, base := t.base,
                  moduleId := t.indexModule, operation := t.operation,
                  documentHash := d.docHash, documentPath := d.path,
                  documentMeta := d.meta, createdAt := t.createdAt },
           { m with indexQueue := rest,
                    indexPopCount := m.indexPopCount + 1 })

/-- StateMachine.pop_removed_resource_event: pops the head of the in-memory
removed-resource event list, or returns none.  The source asserts nothing
here — no PROCESSING check and no pop counter. -/
def pop_removed_resource_event (m : Machine) :
    Option RemovedResourceEvent × Machine :=
  match m.removedEvents with
  | [] => (none, m)
  | e :: rest => (some e, { m with removedEvents := rest })

/-- StateMachine._hash_and_content_type_of: the task's own hash and content
type, then the from-resource pair when present. -/
def hash_and_content_type_of (t : PreprocTaskRow) : List (Nat × Nat) :=
  (t.resHash, t.contentType) ::
    (match taskFromResource t with
     | some p => [p]
     | none => [])

/-- Inner per-index-module loop of complete_preproc_task for one appended
document: take the first pending index task of `(index_module, document)`;
when there is none, create a CREATE index task and append it to the in-memory
queue; when the first pending task is a REMOVE, the two cancel each other and
the REMOVE row is deleted; a pending CREATE leaves everything unchanged. -/
def handle_document_index (eventId : Nat) (base : Nat) (document : DocRow)
    (mm : Machine) (im : Nat) : Machine :=
  match (TaskModel.get_index_tasks_of_document mm.db im document).head? with
  | none =>
    let step := TaskModel.create_index_task mm.db eventId im base document
      IndexOp.CREATE
    { mm with db := step.1, indexQueue := mm.indexQueue ++ [step.2] }
  | some lastTask =>
    if lastTask.operation = IndexOp.REMOVE then
      { mm with db := TaskModel.remove_index_task mm.db lastTask }
    else mm

/-- Per-description step of complete_preproc_task: append the document (plus
its reference row) and run the per-index-module loop on it. -/
def complete_one_description (env : Env) (taskPm taskBase taskResHash eventId : Nat)
    (mm : Machine) (descr : DocumentDescription) : Machine :=
  let appended := DocumentModel.append_document mm.db taskPm taskBase taskResHash
    descr.hash descr.path descr.meta
  (env.indexModuleIds taskBase).foldl
    (handle_document_index eventId taskBase appended.2)
    { mm with db := appended.1 }

/-- Per-hash step of the closing loop of complete_preproc_task: submit
hash-removed when the hash's reference count has dropped to zero. -/
def submit_if_unreferenced (env : Env) (eventId taskBase : Nat)
    (mm : Machine) (p : Nat × Nat) : Machine :=
  if resource_hash_refs mm.db taskBase p.1 = 0 then
    submit_resource_hash_removed env mm eventId taskBase p.1 p.2
  else mm

/-- StateMachine.complete_preproc_task: PROCESSING only.  Looks up the task
row (assert), deletes it, appends one document (plus reference row) per
description and runs the per-index-module loop for each, then submits
hash-removed for each hash the task referenced whose reference count is now
zero, and decrements the preproc pop counter.  `commitOk` models whether the
final `conn.commit()` succeeds; on failure the transaction is rolled back
(database reverts to the pre-call state) but the in-memory queue, event and
counter mutations all happened before the commit point and survive, and the
raised error carries that post-exception machine state. -/
def complete_preproc_task (env : Env) (m : Machine)
    (eventBase eventTaskId : Nat) (descrs : List DocumentDescription)
    (commitOk : Bool) : Except (Err × Machine) Machine :=
  if ¬ m.state = SMState.PROCESSING then .error (Err.assertFail, m) else
  match TaskModel.get_preproc_task m.db eventBase eventTaskId with
  | none => .error (Err.assertFail, m)
  | some task =>
    let m1 := { m with db := TaskModel.remove_preproc_task m.db task }
    let m2 := descrs.foldl
      (complete_one_description env task.preprocModule task.base task.resHash
        task.eventId)
      m1
    let m3 := (hash_and_content_type_of task).foldl
      (submit_if_unreferenced env task.eventId task.base)
      m2
    let m4 := { m3 with preprocPopCount := m3.preprocPopCount - 1 }
    if commitOk then .ok m4
    else .error (Err.dbErr, { m4 with db := m.db })

/-- StateMachine.complete_index_task: PROCESSING only.  Looks up the task row
(assert), reads its document row, deletes the task, and — only when the task
operation is CREATE and the document's references (reference rows plus
pending CREATE tasks, counted after the deletion) are zero — deletes the
document row; decrements the index pop counter.  When the document row is
absent, Python's short-circuit on `task.operation == CREATE` means a REMOVE
task still completes, while a CREATE task crashes evaluating None. -/
def complete_index_task (m : Machine) (eventBase eventTaskId : Nat) :
    Except Err Machine :=
  if ¬ m.state = SMState.PROCESSING then .error Err.assertFail else
  match TaskModel.get_index_task m.db eventBase eventTaskId with
  | none => .error Err.assertFail
  | some task =>
    let document := DocumentModel.get_document m.db task.base task.document
    let db1 := TaskModel.remove_index_task m.db task
    match document with
    | some d =>
      let db2 :=
        if task.operation = IndexOp.CREATE ∧ document_refs db1 d = 0 then
          DocumentModel.remove_document db1 d
        else db1
      .ok { m with db := db2, indexPopCount := m.indexPopCount - 1 }
    | none =>
      if task.operation = IndexOp.CREATE then .error Err.missingRow
      else .ok { m with db := db1, indexPopCount := m.indexPopCount - 1 }

end StateMachine

/-! Concrete machines and runs used by the witnesses and counterexamples. -/

/-- Extraction of a successful result, with a fallback (scenario steps are
proved to succeed separately in the theorems that use them). -/
def okOr {E A : Type} (e : Except E A) (d : A) : A :=
  match e with
  | .ok a => a
  | .error _ => d

/-- The empty freshly-created framework database. -/
def db0 : DB :=
  { knbases := [], resources := [], documents := [], documentRefs := [],
    preprocTasks := [], indexTasks := [],
    nextKbId := 1, nextDocId := 1, nextDocRefId := 1,
    nextPreprocTaskId := 1, nextIndexTaskId := 1, clock := 0 }

/-- Wiring with one preprocessing module (id 100) applicable to every content
type and one index module (id 200). -/
def env1 : Env :=
  { preprocessModuleIds := fun _ _ => [100], indexModuleIds := fun _ => [200] }

/-- Wiring with one preprocessing module (id 100) and no index modules. -/
def envNoIndex : Env :=
  { preprocessModuleIds := fun _ _ => [100], indexModuleIds := fun _ => [] }

/-- Resource R₁: id "a.pdf" ↦ 1, hash 0xAA ↦ 170, content type 10. -/
def rsrc1 : ResourceRow :=
  { base := 1, rid := 1, hash := 170, contentType := 10, meta := 0, updatedAt := 0 }

/-- Resource R₂: id "b.pdf" ↦ 2, same hash 0xAA ↦ 170. -/
def rsrc2 : ResourceRow :=
  { base := 1, rid := 2, hash := 170, contentType := 10, meta := 0, updatedAt := 0 }

namespace ScenarioS2

/-- Machine after: init, create base 1, goto_scanning. -/
def mScan : Machine :=
  okOr (do
    let m0 := StateMachine.init_machine db0
    let c ← StateMachine.create_knowledge_base m0 7 0
    StateMachine.goto_scanning c.2) (StateMachine.init_machine db0)

/-- S1: put R₁, process it, complete the preproc task with one document
(hash 0xD1 ↦ 500), complete the CREATE index task. -/
def mAfterS1 : Machine :=
  okOr (do
    let m3 ← StateMachine.put_resource env1 mScan 1 rsrc1 5
    let m4 := StateMachine.goto_processing m3
    let p ← StateMachine.pop_preproc_event m4
    let m6 ← (StateMachine.complete_preproc_task env1 p.2 1 1
      [{ hash := 500, path := 6, meta := 0 }] true).mapError (fun e => e.1)
    let q ← StateMachine.pop_handle_index_event m6
    let m8 ← StateMachine.complete_index_task q.2 1 1
    StateMachine.goto_scanning m8) mScan

/-- S2: put the content-identical R₂, then remove R₁ and R₂; the second
removal drops hash 170 to zero references and emits the REMOVE index task. -/
def mAfterRemovals : Machine :=
  okOr (do
    let m10 ← StateMachine.put_resource env1 mAfterS1 2 rsrc2 5
    let m11 ← StateMachine.remove_resource env1 m10 3 rsrc1
    StateMachine.remove_resource env1 m11 4 rsrc2) mAfterS1

/-- Machine holding the popped REMOVE index task I₂ (id 2) for document D₁. -/
def mPoppedRemove : Machine :=
  okOr (do
    let p ← StateMachine.pop_handle_index_event
      (StateMachine.goto_processing mAfterRemovals)
    pure p.2) mAfterRemovals

/-- Result of completing the REMOVE index task I₂. -/
def resultOfRemove : Except Err Machine :=
  StateMachine.complete_index_task mPoppedRemove 1 2

end ScenarioS2

namespace ScenarioS2

/-- The REMOVE index task I₂ produced for document D₁ by the second removal. -/
def i2 : IndexTaskRow :=
  { id := 2, preprocModule := 100, indexModule := 200, base := 1, document := 1,
    operation := IndexOp.REMOVE, eventId := 4, createdAt := 2 }

/-- Document D₁ produced by completing the preprocessing task of hash 0xAA. -/
def d1 : DocRow :=
  { id := 1, preprocModule := 100, base := 1, resHash := 170, docHash := 500,
    path := 6, meta := 0 }

/-- Machine after completing the REMOVE index task I₂. -/
def mFinalRemove : Machine := okOr resultOfRemove mPoppedRemove

end ScenarioS2

/-- C1 counterexample: in scenario S2, the REMOVE index task I₂ (id 2) for
document D₁ has zero remaining document references once I₂ itself is removed,
yet complete_index_task succeeds and D₁ is still present in the documents
table afterwards — the document row is not deleted, contradicting the claim
(deletion only happens for CREATE tasks). -/
theorem C1_counterexample :
    TaskModel.get_index_task ScenarioS2.mPoppedRemove.db 1 2 = some ScenarioS2.i2 ∧
    ScenarioS2.i2.operation = IndexOp.REMOVE ∧
    StateMachine.document_refs
      (TaskModel.remove_index_task ScenarioS2.mPoppedRemove.db ScenarioS2.i2)
      ScenarioS2.d1 = 0 ∧
    ScenarioS2.resultOfRemove.toOption = some ScenarioS2.mFinalRemove ∧
    ScenarioS2.d1 ∈ ScenarioS2.mFinalRemove.db.documents := by
  decide

/-- C1 (amended): complete_index_task deletes the completed task row, and it
deletes the task's document row exactly when the task's operation is CREATE
and the document's references (reference rows plus pending CREATE tasks,
counted after the task row is gone) are zero; completing a REMOVE index task
retains the document row even when its references are zero.  In scenario S2,
completing the REMOVE task I₂ therefore leaves D₁ in place. -/
theorem C1_amended (m : Machine) (base taskId : Nat) (t : IndexTaskRow) (d : DocRow)
    (hstate : m.state = SMState.PROCESSING)
    (ht : TaskModel.get_index_task m.db base taskId = some t)
    (hd : DocumentModel.get_document m.db t.base t.document = some d) :
    (t.operation = IndexOp.REMOVE →
      StateMachine.complete_index_task m base taskId =
        Except.ok { m with db := TaskModel.remove_index_task m.db t,
                           indexPopCount := m.indexPopCount - 1 }) ∧
    (t.operation = IndexOp.CREATE →
      StateMachine.complete_index_task m base taskId =
        Except.ok { m with
          db :=
            if StateMachine.document_refs (TaskModel.remove_index_task m.db t) d = 0
            then DocumentModel.remove_document (TaskModel.remove_index_task m.db t) d
            else TaskModel.remove_index_task m.db t,
          indexPopCount := m.indexPopCount - 1 }) := by
  constructor
  · intro hop
    simp only [StateMachine.complete_index_task, hstate, ht, hd, hop]
    simp
  · intro hop
    simp only [StateMachine.complete_index_task, hstate, ht, hd, hop]
    by_cases hz :
        StateMachine.document_refs (TaskModel.remove_index_task m.db t) d = 0
    · simp [hz]
    · simp [hz]

/-- C1 amended witness: the amended statement applied to the concrete S2
machine holding the popped REMOVE task I₂. -/
theorem C1_amended_witness :
    StateMachine.complete_index_task ScenarioS2.mPoppedRemove 1 2 =
      Except.ok { ScenarioS2.mPoppedRemove with
        db := TaskModel.remove_index_task ScenarioS2.mPoppedRemove.db ScenarioS2.i2,
        indexPopCount := ScenarioS2.mPoppedRemove.indexPopCount - 1 } :=
  (C1_amended ScenarioS2.mPoppedRemove 1 2 ScenarioS2.i2 ScenarioS2.d1
    (by decide) (by decide) (by decide)).1 (by decide)

/-- Decidable equality for operation results (needed to evaluate concrete
runs inside witnesses and counterexamples). -/
instance exceptDecEq {E A : Type} [DecidableEq E] [DecidableEq A] :
    DecidableEq (Except E A) := fun x y =>
  match x, y with
  | .ok a, .ok b =>
    if h : a = b then isTrue (by rw [h]) else isFalse (fun he => by cases he; exact h rfl)
  | .error a, .error b =>
    if h : a = b then isTrue (by rw [h]) else isFalse (fun he => by cases he; exact h rfl)
  | .ok _, .error _ => isFalse (fun he => by cases he)
  | .error _, .ok _ => isFalse (fun he => by cases he)

/-- Machine in SETTING holding exactly one knowledge base (id 1) and no
resources at all. -/
def mOneEmptyBase : Machine :=
  okOr ((StateMachine.create_knowledge_base (StateMachine.init_machine db0) 7 0).map
    (fun c => c.2)) (StateMachine.init_machine db0)

/-- C8: the claim is right and the code is wrong.  remove_knowledge_base
contains the expression `next()` — the builtin called with no arguments —
so the call unconditionally raises TypeError: evaluated on a SETTING machine
whose only knowledge base (id 1) holds no resources, the embedded code
errors with typeErr instead of deleting the row and returning normally (and
a base that does hold resources also gets TypeError, never the documented
ValueError). -/
theorem C8_code_bug_eval :
    mOneEmptyBase.state = SMState.SETTING ∧
    ResourceModel.list_resource_hashes mOneEmptyBase.db 1 = [] ∧
    StateMachine.remove_knowledge_base mOneEmptyBase 1 = Except.error Err.typeErr := by
  decide

/-- C10: removed-resource events live only in memory.  A machine constructed
on any database starts with an empty removed-resource event queue, so
pop_removed_resource_event returns none and leaves the machine unchanged,
while the pending preproc and index queues are restored from the task
tables. -/
theorem C10_removed_events_not_persisted (db : DB) :
    (StateMachine.init_machine db).removedEvents = [] ∧
    StateMachine.pop_removed_resource_event (StateMachine.init_machine db) =
      (none, StateMachine.init_machine db) ∧
    (StateMachine.init_machine db).preprocQueue = (StateMachine.load_tasks db).1 ∧
    (StateMachine.init_machine db).indexQueue = (StateMachine.load_tasks db).2 := by
  refine ⟨rfl, ?_, rfl, rfl⟩
  unfold StateMachine.pop_removed_resource_event
  rfl

/-- Wiring with no preprocessing and no index modules at all. -/
def envNone : Env :=
  { preprocessModuleIds := fun _ _ => [], indexModuleIds := fun _ => [] }

namespace ScenarioC6

/-- SCANNING machine with one queued RemovedResourceEvent (hash 170),
obtained by putting and then removing resource R₁ under a base with no
applicable modules. -/
def mScanEvent : Machine :=
  okOr (do
    let c ← StateMachine.create_knowledge_base (StateMachine.init_machine db0) 7 0
    let m2 ← StateMachine.goto_scanning c.2
    let m3 ← StateMachine.put_resource envNone m2 1 rsrc1 5
    StateMachine.remove_resource envNone m3 2 rsrc1) (StateMachine.init_machine db0)

end ScenarioC6

/-- C6 counterexample: on a SCANNING machine (not PROCESSING) holding one
queued removed-resource event, pop_removed_resource_event succeeds, returns
the event, and increments no pop counter — popping is not restricted to
PROCESSING and has no counter, contradicting the claim. -/
theorem C6_counterexample :
    ScenarioC6.mScanEvent.state = SMState.SCANNING ∧
    ¬ ScenarioC6.mScanEvent.state = SMState.PROCESSING ∧
    (StateMachine.pop_removed_resource_event ScenarioC6.mScanEvent).1 =
      some { protoEventId := 2, hash := 170, base := 1 } ∧
    (StateMachine.pop_removed_resource_event ScenarioC6.mScanEvent).2.preprocPopCount = 0 ∧
    (StateMachine.pop_removed_resource_event ScenarioC6.mScanEvent).2.indexPopCount = 0 := by
  decide

/-- C6 (amended): pop_preproc_event and pop_handle_index_event are legal only
in PROCESSING and each increments its own pop counter on a successful pop;
pop_removed_resource_event is callable in every state and increments no
counter; and goto_setting / goto_scanning, when they would change state, fail
while either queue is non-empty or either pop counter is non-zero. -/
theorem C6_amended (m : Machine) :
    (¬ m.state = SMState.PROCESSING →
      StateMachine.pop_preproc_event m = Except.error Err.assertFail ∧
      StateMachine.pop_handle_index_event m = Except.error Err.assertFail) ∧
    (m.state = SMState.PROCESSING → ∀ t rest, m.preprocQueue = t :: rest →
      (StateMachine.pop_preproc_event m).toOption.map (fun p => p.2.preprocPopCount) =
        some (m.preprocPopCount + 1)) ∧
    (m.state = SMState.PROCESSING → ∀ t rest, m.indexQueue = t :: rest →
      ∀ d, DocumentModel.get_document m.db t.base t.document = some d →
      (StateMachine.pop_handle_index_event m).toOption.map (fun p => p.2.indexPopCount) =
        some (m.indexPopCount + 1)) ∧
    ((StateMachine.pop_removed_resource_event m).2.preprocPopCount = m.preprocPopCount ∧
     (StateMachine.pop_removed_resource_event m).2.indexPopCount = m.indexPopCount ∧
     (StateMachine.pop_removed_resource_event m).2.state = m.state) ∧
    (¬ m.state = SMState.SETTING →
      (¬ m.preprocQueue = [] ∨ ¬ m.indexQueue = [] ∨
       ¬ m.preprocPopCount = 0 ∨ ¬ m.indexPopCount = 0) →
      StateMachine.goto_setting m = Except.error Err.assertFail) ∧
    (¬ m.state = SMState.SCANNING →
      (¬ m.preprocQueue = [] ∨ ¬ m.indexQueue = [] ∨
       ¬ m.preprocPopCount = 0 ∨ ¬ m.indexPopCount = 0) →
      StateMachine.goto_scanning m = Except.error Err.assertFail) := by
  refine ⟨?_, ?_, ?_, ?_, ?_, ?_⟩
  · intro hnp
    constructor
    · simp [StateMachine.pop_preproc_event, hnp]
    · simp [StateMachine.pop_handle_index_event, hnp]
  · intro hp t rest hq
    simp [StateMachine.pop_preproc_event, hp, hq, Except.toOption]
  · intro hp t rest hq d hd
    simp [StateMachine.pop_handle_index_event, hp, hq, hd, Except.toOption]
  · unfold StateMachine.pop_removed_resource_event
    cases m.removedEvents <;> simp
  · intro hns hbad
    have hc : ¬ (m.preprocQueue = [] ∧ m.indexQueue = [] ∧
        m.preprocPopCount = 0 ∧ m.indexPopCount = 0) := by
      rcases hbad with h | h | h | h <;> tauto
    simp [StateMachine.goto_setting, hns, hc]
  · intro hns hbad
    have hc : ¬ (m.preprocQueue = [] ∧ m.indexQueue = [] ∧
        m.preprocPopCount = 0 ∧ m.indexPopCount = 0) := by
      rcases hbad with h | h | h | h <;> tauto
    simp [StateMachine.goto_scanning, hns, hc]

/-- C6 amended witness: the amended statement applied to the concrete
SCANNING machine with a queued removed-resource event. -/
theorem C6_amended_witness :
    StateMachine.pop_preproc_event ScenarioC6.mScanEvent = Except.error Err.assertFail ∧
    (StateMachine.pop_removed_resource_event ScenarioC6.mScanEvent).2.preprocPopCount =
      ScenarioC6.mScanEvent.preprocPopCount :=
  ⟨((C6_amended ScenarioC6.mScanEvent).1 (by decide)).1,
   (C6_amended ScenarioC6.mScanEvent).2.2.2.1.1⟩

/-- Resource R₃: id 3, hash 0xCC ↦ 204, content type 10. -/
def rsrc3 : ResourceRow :=
  { base := 1, rid := 3, hash := 204, contentType := 10, meta := 0, updatedAt := 0 }

namespace ScenarioC3

/-- Machine after put_resource(4, R₃) then remove_resource(5, R₃) in the same
SCANNING phase (scenario S4), under one preprocessing and one index module. -/
def mAfterPutRemove : Machine :=
  okOr (do
    let m1 ← StateMachine.put_resource env1 ScenarioS2.mScan 4 rsrc3 5
    StateMachine.remove_resource env1 m1 5 rsrc3) ScenarioS2.mScan

end ScenarioC3

/-- C3 counterexample: in scenario S4 (put then remove of R₃ with hash 0xCC
whose refs were zero beforehand, within one SCANNING phase), the created
preprocessing task for (base 1, hash 0xCC) is still pending afterwards — one
task, not zero, because remove_resource sees the hash's refcount at 1 (held
by the task itself) and cancels nothing; the claim's "zero preprocessing
tasks (the created task is cancelled)" is false.  The other claimed effects
(documents and index tables unchanged, no RemovedResourceEvent) do hold. -/
theorem C3_counterexample :
    (TaskModel.get_preproc_tasks_of_hash ScenarioC3.mAfterPutRemove.db 1 204).length = 1 ∧
    ¬ (TaskModel.get_preproc_tasks_of_hash ScenarioC3.mAfterPutRemove.db 1 204).length = 0 ∧
    ScenarioC3.mAfterPutRemove.removedEvents = [] ∧
    ScenarioC3.mAfterPutRemove.db.documents = ScenarioS2.mScan.db.documents ∧
    ScenarioC3.mAfterPutRemove.db.indexTasks = ScenarioS2.mScan.db.indexTasks ∧
    ScenarioC3.mAfterPutRemove.state = SMState.SCANNING := by
  decide

/-- Decomposition of a zero resource-hash reference count into its three
summands (no resource row, no task keyed by res_hash, none by from_res_hash). -/
theorem refs_zero_parts {db : DB} {b h : Nat}
    (hz : StateMachine.resource_hash_refs db b h = 0) :
    ResourceModel.count_resources db b h = 0 ∧
    db.preprocTasks.filter (fun t => t.base = b ∧ t.resHash = h) = [] ∧
    db.preprocTasks.filter (fun t => t.base = b ∧ t.fromResHash = some h) = [] := by
  unfold StateMachine.resource_hash_refs TaskModel.count_resource_refs at hz
  refine ⟨by omega, ?_, ?_⟩
  · rw [← List.length_eq_zero]
    omega
  · rw [← List.length_eq_zero]
    omega

/-- Appending an element that satisfies the predicate to a list in which the
search fails finds exactly that element. -/
theorem find?_append_singleton {α : Type} (p : α → Bool) (l : List α) (a : α)
    (hl : l.find? p = none) (ha : p a = true) :
    (l ++ [a]).find? p = some a := by
  induction l with
  | nil => simp [List.find?, ha]
  | cons x xs ih =>
    rw [List.find?_cons] at hl
    cases hpx : p x with
    | true => rw [hpx] at hl; cases hl
    | false =>
      rw [hpx] at hl
      rw [List.cons_append, List.find?_cons, hpx]
      exact ih hl

/-- Dropping the first event with the given hash leaves none with that hash,
provided at most one was queued. -/
theorem removeFirstWithHash_none (l : List RemovedResourceEvent) (h : Nat)
    (hle : (l.filter (fun e => e.hash = h)).length ≤ 1) :
    (StateMachine.removeFirstWithHash l h).filter (fun e => e.hash = h) = [] := by
  induction l with
  | nil => rfl
  | cons e rest ih =>
    unfold StateMachine.removeFirstWithHash
    by_cases he : e.hash = h
    · rw [if_pos he]
      rw [List.filter_cons] at hle
      simp only [decide_eq_true_eq] at hle
      rw [if_pos he, List.length_cons] at hle
      rw [← List.length_eq_zero]
      omega
    · rw [if_neg he]
      rw [List.filter_cons] at hle ⊢
      simp only [decide_eq_true_eq] at hle ⊢
      rw [if_neg he] at hle ⊢
      exact ih hle

/-- The preprocessing task that put_resource creates for a fresh resource
with previously-unreferenced hash, under a single applicable module. -/
def createdTask (m : Machine) (eid : Nat) (r : ResourceRow) (path pm : Nat) :
    PreprocTaskRow :=
  { id := m.db.nextPreprocTaskId, preprocModule := pm, base := r.base,
    resHash := r.hash, fromResHash := none, fromResContentType := none,
    eventId := eid, path := path, contentType := r.contentType,
    createdAt := m.db.clock }

/-- C3 (amended): within one SCANNING phase, putting a fresh resource whose
hash had zero references and then removing it leaves exactly the created
preprocessing task pending for (base, hash) — the task is not cancelled,
because it alone keeps the hash's reference count at 1, so remove_resource
submits nothing; the resource, document, document-ref and index-task tables
and the index queue are left unchanged, and no RemovedResourceEvent remains
queued for the hash (the put dropped any pre-existing one and the removal
queued none). -/
theorem C3_amended (env : Env) (m : Machine) (r : ResourceRow)
    (eid1 eid2 path pm : Nat)
    (hstate : m.state = SMState.SCANNING)
    (hnew : ResourceModel.get_resource m.db r.base r.rid = none)
    (hrefs : StateMachine.resource_hash_refs m.db r.base r.hash = 0)
    (hmods : env.preprocessModuleIds r.base r.contentType = [pm])
    (hev : (m.removedEvents.filter (fun e => e.hash = r.hash)).length ≤ 1) :
    ∃ mF,
      (StateMachine.put_resource env m eid1 r path).bind
        (fun m2 => StateMachine.remove_resource env m2 eid2 r) = Except.ok mF ∧
      mF.db.preprocTasks = m.db.preprocTasks ++ [createdTask m eid1 r path pm] ∧
      (TaskModel.get_preproc_tasks_of_hash mF.db r.base r.hash).length = 1 ∧
      mF.db.resources = m.db.resources ∧
      mF.db.documents = m.db.documents ∧
      mF.db.documentRefs = m.db.documentRefs ∧
      mF.db.indexTasks = m.db.indexTasks ∧
      mF.indexQueue = m.indexQueue ∧
      mF.preprocQueue = m.preprocQueue ++ [createdTask m eid1 r path pm] ∧
      mF.removedEvents.filter (fun e => e.hash = r.hash) = [] ∧
      mF.state = SMState.SCANNING := by
  obtain ⟨hcr, hf1, hf2⟩ := refs_zero_parts hrefs
  have hnewf := hnew
  unfold ResourceModel.get_resource at hnewf
  unfold ResourceModel.count_resources at hcr
  have hcrnil : m.db.resources.filter (fun x => x.base = r.base ∧ x.hash = r.hash) = [] := by
    rw [← List.length_eq_zero]; omega
  have hfind2 :
      (m.db.resources ++ [r]).find?
        (fun x => decide (x.base = r.base ∧ x.rid = r.rid)) = some r := by
    apply find?_append_singleton _ _ _ hnewf
    simp
  have hresrm :
      (m.db.resources ++ [r]).filter
        (fun x => decide (¬ (x.base = r.base ∧ x.rid = r.rid))) = m.db.resources := by
    rw [List.filter_append]
    have h1 : m.db.resources.filter
        (fun x => decide (¬ (x.base = r.base ∧ x.rid = r.rid))) = m.db.resources := by
      rw [List.filter_eq_self]
      intro a ha
      have := List.find?_eq_none.mp hnewf a ha
      simp only [decide_eq_true_eq] at this ⊢
      tauto
    have h2 : ([r].filter (fun x => decide (¬ (x.base = r.base ∧ x.rid = r.rid)))) =
        ([] : List ResourceRow) := by simp
    rw [h1, h2, List.append_nil]
  refine ⟨{ m with
      db := { m.db with
        preprocTasks := m.db.preprocTasks ++ [createdTask m eid1 r path pm],
        nextPreprocTaskId := m.db.nextPreprocTaskId + 1,
        clock := m.db.clock + 1 },
      preprocQueue := m.preprocQueue ++ [createdTask m eid1 r path pm],
      removedEvents := StateMachine.removeFirstWithHash m.removedEvents r.hash },
    ?_, rfl, ?_, rfl, rfl, rfl, rfl, rfl, rfl,
    removeFirstWithHash_none m.removedEvents r.hash hev, hstate⟩
  · unfold StateMachine.put_resource
    rw [hstate]
    simp only [hnew, hrefs]
    unfold StateMachine.submit_resource_hash_created
    unfold TaskModel.get_preproc_tasks_of_hash
    simp only [ResourceModel.save_resource, hmods, hf1]
    simp only [List.foldl_nil, List.foldl_cons]
    unfold TaskModel.create_preproc_task
    simp only [Option.map_none']
    unfold StateMachine.remove_resource
    simp only [ResourceModel.get_resource, ResourceModel.remove_resource]
    simp only [not_true, ite_true, ite_false, Except.bind]
    simp only [hfind2, hresrm]
    unfold StateMachine.resource_hash_refs ResourceModel.count_resources TaskModel.count_resource_refs
    simp only [List.filter_append, hcrnil, hf1, hf2, createdTask]
    simp
  · unfold TaskModel.get_preproc_tasks_of_hash
    simp only [List.filter_append, hf1, createdTask]
    simp

/-- C3 amended witness: the amended statement applied to the concrete S4
machine and resource R₃. -/
theorem C3_amended_witness :
    ∃ mF,
      (StateMachine.put_resource env1 ScenarioS2.mScan 4 rsrc3 5).bind
        (fun m2 => StateMachine.remove_resource env1 m2 5 rsrc3) = Except.ok mF ∧
      (TaskModel.get_preproc_tasks_of_hash mF.db rsrc3.base rsrc3.hash).length = 1 :=
  match C3_amended env1 ScenarioS2.mScan rsrc3 4 5 5 100 (by decide) (by decide)
      (by decide) (by decide) (by decide) with
  | ⟨mF, h1, _, h3, _⟩ => ⟨mF, h1, h3⟩

/-- C9: complete_preproc_task is not atomic with respect to the in-memory
queues.  When the final commit fails, the call raises, the database reverts
to its pre-call state, but the machine keeps every in-memory mutation of the
successful run — in particular the newly created index tasks already appended
to the pending queue — so the error state equals the committed run's machine
with the old database, and pop_handle_index_event can subsequently return an
index task that has no row in the database (witnessed concretely below). -/
theorem C9_nonatomic (env : Env) (m : Machine) (base taskId : Nat)
    (descrs : List DocumentDescription) (mT : Machine)
    (hok : StateMachine.complete_preproc_task env m base taskId descrs true =
      Except.ok mT) :
    StateMachine.complete_preproc_task env m base taskId descrs false =
      Except.error (Err.dbErr, { mT with db := m.db }) := by
  unfold StateMachine.complete_preproc_task at hok ⊢
  by_cases hs : ¬ m.state = SMState.PROCESSING
  · rw [if_pos hs] at hok
    cases hok
  · rw [if_neg hs] at hok ⊢
    cases htask : TaskModel.get_preproc_task m.db base taskId with
    | none =>
      rw [htask] at hok
      cases hok
    | some task =>
      rw [htask] at hok
      cases hok
      rfl

namespace ScenarioC9

/-- Resource with fresh hash 300 whose preprocessing will re-produce the
already-persisted document hash 500. -/
def rsrc4 : ResourceRow :=
  { base := 1, rid := 4, hash := 300, contentType := 10, meta := 0, updatedAt := 0 }

/-- PROCESSING machine holding the popped preproc task id 2 (hash 300); the
document with hash 500 already exists in the database from scenario S1. -/
def mReady : Machine :=
  okOr (do
    let m1 ← StateMachine.put_resource env1 ScenarioS2.mAfterS1 6 rsrc4 7
    let p ← StateMachine.pop_preproc_event (StateMachine.goto_processing m1)
    pure p.2) ScenarioS2.mAfterS1

/-- The completion input: one document description re-using hash 500. -/
def descr500 : List DocumentDescription := [{ hash := 500, path := 6, meta := 0 }]

/-- Result of the completion when the commit succeeds. -/
def committedRun : Except (Err × Machine) Machine :=
  StateMachine.complete_preproc_task env1 mReady 1 2 descr500 true

/-- Result of the completion when the commit fails. -/
def failedRun : Except (Err × Machine) Machine :=
  StateMachine.complete_preproc_task env1 mReady 1 2 descr500 false

/-- Machine of the committed run. -/
def mCommitted : Machine := okOr committedRun mReady

/-- Machine left behind by the failed run (carried by the raised error). -/
def mFailed : Machine :=
  match failedRun with
  | .error e => e.2
  | .ok mm => mm

end ScenarioC9

/-- C9 witness: on the concrete scenario, the failed run leaves the machine
with the rolled-back database but the committed run's queues; the next
pop_handle_index_event returns the index task with id 2 even though no
index-task row with id 2 exists in the database. -/
theorem C9_nonatomic_witness :
    ScenarioC9.failedRun =
      Except.error (Err.dbErr,
        { ScenarioC9.mCommitted with db := ScenarioC9.mReady.db }) ∧
    (StateMachine.pop_handle_index_event ScenarioC9.mFailed).toOption.map
      (fun p => p.1.map (fun e => e.taskId)) = some (some 2) ∧
    TaskModel.get_index_task ScenarioC9.mFailed.db 1 2 = none :=
  ⟨C9_nonatomic env1 ScenarioC9.mReady 1 2 ScenarioC9.descr500
      ScenarioC9.mCommitted (by decide),
   by decide, by decide⟩

/-- Inserting into a list is a permutation of consing. -/
theorem insertSorted_perm {α : Type} (le : α → α → Bool) (a : α) (l : List α) :
    List.Perm (insertSorted le a l) (a :: l) := by
  induction l with
  | nil => exact List.Perm.refl _
  | cons b bs ih =>
    unfold insertSorted
    by_cases h : le a b = true
    · rw [if_pos h]
    · rw [if_neg h]
      exact (List.Perm.cons b ih).trans (List.Perm.swap a b bs)

/-- The insertion sort permutes its input. -/
theorem insertionSortBy_perm {α : Type} (le : α → α → Bool) (l : List α) :
    List.Perm (insertionSortBy le l) l := by
  induction l with
  | nil => exact List.Perm.refl _
  | cons a as ih =>
    unfold insertionSortBy
    exact (insertSorted_perm le a _).trans (List.Perm.cons a ih)

/-- Inserting into a sorted list keeps it sorted, for a total transitive
comparison. -/
theorem insertSorted_sorted {α : Type} (le : α → α → Bool)
    (htot : ∀ a b, le a b = true ∨ le b a = true)
    (htrans : ∀ a b c, le a b = true → le b c = true → le a c = true)
    (a : α) (l : List α) (hl : l.Pairwise (fun x y => le x y = true)) :
    (insertSorted le a l).Pairwise (fun x y => le x y = true) := by
  induction l with
  | nil => simp [insertSorted]
  | cons b bs ih =>
    rw [List.pairwise_cons] at hl
    unfold insertSorted
    by_cases h : le a b = true
    · rw [if_pos h]
      rw [List.pairwise_cons]
      constructor
      · intro x hx
        rcases List.mem_cons.mp hx with hx | hx
        · rw [hx]; exact h
        · exact htrans a b x h (hl.1 x hx)
      · rw [List.pairwise_cons]
        exact hl
    · rw [if_neg h]
      rw [List.pairwise_cons]
      constructor
      · intro x hx
        have hx' := (insertSorted_perm le a bs).mem_iff.mp hx
        rcases List.mem_cons.mp hx' with hx' | hx'
        · rw [hx']
          rcases htot a b with ht | ht
          · exact absurd ht h
          · exact ht
        · exact hl.1 x hx'
      · exact ih hl.2

/-- The insertion sort sorts, for a total transitive comparison. -/
theorem insertionSortBy_sorted {α : Type} (le : α → α → Bool)
    (htot : ∀ a b, le a b = true ∨ le b a = true)
    (htrans : ∀ a b c, le a b = true → le b c = true → le a c = true)
    (l : List α) :
    (insertionSortBy le l).Pairwise (fun x y => le x y = true) := by
  induction l with
  | nil => simp [insertionSortBy]
  | cons a as ih =>
    unfold insertionSortBy
    exact insertSorted_sorted le htot htrans a _ ih

/-- Occurrence count distributes over flatMap. -/
theorem count_flatMap {α β : Type} [DecidableEq β] (f : α → List β) (l : List α)
    (b : β) :
    ((l.flatMap f).count b) = (l.map (fun a => (f a).count b)).sum := by
  induction l with
  | nil => rfl
  | cons x xs ih => simp [List.flatMap_cons, List.count_append, ih]

/-- Counting inside a key-filtered list. -/
theorem count_filter_key {α : Type} [DecidableEq α] (key : α → Nat) (i : Nat)
    (l : List α) (a : α) :
    (l.filter (fun x => key x = i)).count a =
      if key a = i then l.count a else 0 := by
  by_cases h : key a = i
  · rw [if_pos h]
    exact List.count_filter (by simpa using h)
  · rw [if_neg h]
    rw [List.count_eq_zero]
    intro hmem
    exact h (by simpa using (List.mem_filter.mp hmem).2)

/-- Sum of an indicator over a duplicate-free id list containing the key. -/
theorem sum_ite_key (ids : List Nat) (k c : Nat) (hnd : ids.Nodup)
    (hk : k ∈ ids) :
    (ids.map (fun i => if k = i then c else 0)).sum = c := by
  induction ids with
  | nil => cases hk
  | cons i is ih =>
    rw [List.map_cons, List.sum_cons]
    rw [List.nodup_cons] at hnd
    rcases List.mem_cons.mp hk with h | h
    · rw [if_pos h]
      have hz : (is.map (fun j => if k = j then c else 0)).sum = 0 := by
        apply List.sum_eq_zero
        intro x hx
        rcases List.mem_map.mp hx with ⟨j, hj, hxe⟩
        rw [← hxe, if_neg]
        intro he
        exact hnd.1 (h ▸ he ▸ hj)
      omega
    · have hki : ¬ k = i := fun he => hnd.1 (he ▸ h)
      rw [if_neg hki, ih hnd.2 h]
      omega

/-- Gathering the rows of every base by a flatMap of per-base filters is a
permutation of the whole table, provided base ids are unique and every row's
base occurs. -/
theorem flatMap_filter_perm {α β : Type} [DecidableEq α] (key : α → Nat)
    (bid : β → Nat) (bs : List β) (l : List α)
    (hnd : (bs.map bid).Nodup) (hcov : ∀ x ∈ l, key x ∈ bs.map bid) :
    List.Perm (bs.flatMap (fun b => l.filter (fun x => key x = bid b))) l := by
  rw [List.perm_iff_count]
  intro a
  rw [count_flatMap]
  have hmap : (bs.map (fun b => (l.filter (fun x => key x = bid b)).count a)) =
      ((bs.map bid).map (fun i => if key a = i then l.count a else 0)) := by
    rw [List.map_map]
    apply List.map_congr_left
    intro b _
    rw [Function.comp_apply, count_filter_key]
  rw [hmap]
  by_cases ha : a ∈ l
  · exact sum_ite_key _ _ _ hnd (hcov a ha)
  · rw [List.count_eq_zero_of_not_mem ha]
    apply List.sum_eq_zero
    intro x hx
    rcases List.mem_map.mp hx with ⟨j, hj, hxe⟩
    rw [← hxe]
    simp [List.count_eq_zero_of_not_mem ha]

/-- The preproc-task load key is total. -/
theorem preprocLe_total (a b : PreprocTaskRow) :
    StateMachine.preprocLe a b = true ∨ StateMachine.preprocLe b a = true := by
  unfold StateMachine.preprocLe
  simp only [Bool.or_eq_true, Bool.and_eq_true, decide_eq_true_eq, beq_iff_eq]
  omega

/-- The preproc-task load key is transitive. -/
theorem preprocLe_trans (a b c : PreprocTaskRow)
    (h1 : StateMachine.preprocLe a b = true)
    (h2 : StateMachine.preprocLe b c = true) :
    StateMachine.preprocLe a c = true := by
  unfold StateMachine.preprocLe at h1 h2 ⊢
  simp only [Bool.or_eq_true, Bool.and_eq_true, decide_eq_true_eq, beq_iff_eq] at h1 h2 ⊢
  omega

/-- The index-task load key is total. -/
theorem indexLe_total (a b : IndexTaskRow) :
    StateMachine.indexLe a b = true ∨ StateMachine.indexLe b a = true := by
  unfold StateMachine.indexLe
  simp only [Bool.or_eq_true, Bool.and_eq_true, decide_eq_true_eq, beq_iff_eq]
  omega

/-- The index-task load key is transitive. -/
theorem indexLe_trans (a b c : IndexTaskRow)
    (h1 : StateMachine.indexLe a b = true)
    (h2 : StateMachine.indexLe b c = true) :
    StateMachine.indexLe a c = true := by
  unfold StateMachine.indexLe at h1 h2 ⊢
  simp only [Bool.or_eq_true, Bool.and_eq_true, decide_eq_true_eq, beq_iff_eq] at h1 h2 ⊢
  omega

/-- C5: reconstructing the StateMachine on an existing database (whose task
rows all belong to existing knowledge bases, with unique base ids — as SQLite
primary keys guarantee) yields initial state PROCESSING exactly when a task
table is non-empty (otherwise SETTING), and in-memory queues that are
permutations of the persisted task tables (hence equal as multisets keyed by
task id) sorted by `(created_at, id)`. -/
theorem C5_recovery (db : DB)
    (hnd : (db.knbases.map (fun b => b.id)).Nodup)
    (hpcov : ∀ t ∈ db.preprocTasks, t.base ∈ db.knbases.map (fun b => b.id))
    (hicov : ∀ t ∈ db.indexTasks, t.base ∈ db.knbases.map (fun b => b.id)) :
    ((StateMachine.init_machine db).state = SMState.PROCESSING ↔
      ¬ (db.preprocTasks = [] ∧ db.indexTasks = [])) ∧
    ((StateMachine.init_machine db).state = SMState.SETTING ↔
      (db.preprocTasks = [] ∧ db.indexTasks = [])) ∧
    List.Perm (StateMachine.init_machine db).preprocQueue db.preprocTasks ∧
    List.Perm (StateMachine.init_machine db).indexQueue db.indexTasks ∧
    (StateMachine.init_machine db).preprocQueue.Pairwise
      (fun a b => StateMachine.preprocLe a b = true) ∧
    (StateMachine.init_machine db).indexQueue.Pairwise
      (fun a b => StateMachine.indexLe a b = true) := by
  have hp0 : List.Perm (db.knbases.flatMap (fun b => TaskModel.get_preproc_tasks db b.id))
      db.preprocTasks := by
    unfold TaskModel.get_preproc_tasks
    exact flatMap_filter_perm (fun t => t.base) (fun b => b.id) db.knbases
      db.preprocTasks hnd hpcov
  have hi0 : List.Perm (db.knbases.flatMap (fun b => TaskModel.get_index_tasks db b.id))
      db.indexTasks := by
    unfold TaskModel.get_index_tasks
    exact flatMap_filter_perm (fun t => t.base) (fun b => b.id) db.knbases
      db.indexTasks hnd hicov
  have hp : List.Perm (StateMachine.init_machine db).preprocQueue db.preprocTasks :=
    (insertionSortBy_perm _ _).trans hp0
  have hi : List.Perm (StateMachine.init_machine db).indexQueue db.indexTasks :=
    (insertionSortBy_perm _ _).trans hi0
  have hpe : (StateMachine.init_machine db).preprocQueue = [] ↔ db.preprocTasks = [] := by
    constructor
    · intro h
      exact List.eq_nil_of_length_eq_zero (by rw [← hp.length_eq, h]; rfl)
    · intro h
      exact List.eq_nil_of_length_eq_zero (by rw [hp.length_eq, h]; rfl)
  have hie : (StateMachine.init_machine db).indexQueue = [] ↔ db.indexTasks = [] := by
    constructor
    · intro h
      exact List.eq_nil_of_length_eq_zero (by rw [← hi.length_eq, h]; rfl)
    · intro h
      exact List.eq_nil_of_length_eq_zero (by rw [hi.length_eq, h]; rfl)
  have hstate : (StateMachine.init_machine db).state =
      (if ¬ (StateMachine.init_machine db).preprocQueue = [] ∨
          ¬ (StateMachine.init_machine db).indexQueue = []
       then SMState.PROCESSING else SMState.SETTING) := rfl
  refine ⟨?_, ?_, hp, hi, ?_, ?_⟩
  · rw [hstate]
    by_cases h1 : (StateMachine.init_machine db).preprocQueue = [] <;>
      by_cases h2 : (StateMachine.init_machine db).indexQueue = [] <;>
      simp [h1, h2, hpe, hie] <;> tauto
  · rw [hstate]
    by_cases h1 : (StateMachine.init_machine db).preprocQueue = [] <;>
      by_cases h2 : (StateMachine.init_machine db).indexQueue = [] <;>
      simp [h1, h2, hpe, hie] <;> tauto
  · exact insertionSortBy_sorted _ preprocLe_total preprocLe_trans _
  · exact insertionSortBy_sorted _ indexLe_total indexLe_trans _

/-- C5 witness: recovery applied to the concrete S2 database persisted after
the removals (one base, one pending REMOVE index task). -/
theorem C5_recovery_witness :
    (StateMachine.init_machine ScenarioS2.mAfterRemovals.db).state =
      SMState.PROCESSING ∧
    List.Perm (StateMachine.init_machine ScenarioS2.mAfterRemovals.db).indexQueue
      ScenarioS2.mAfterRemovals.db.indexTasks :=
  ⟨((C5_recovery ScenarioS2.mAfterRemovals.db (by decide) (by decide)
      (by decide)).1).mpr (by decide),
   (C5_recovery ScenarioS2.mAfterRemovals.db (by decide) (by decide)
      (by decide)).2.2.2.1⟩

/-- With no index modules, the per-document fold deletes exactly the listed
documents from the table. -/
theorem remove_fold_docs (ds : List DocRow) (db : DB) (q : List IndexTaskRow)
    (eventId base : Nat) :
    ((ds.foldl (StateMachine.remove_or_create_remove_tasks eventId base []) (db, q)).1).documents =
      db.documents.filter (fun x => ¬ x.id ∈ ds.map (fun d => d.id)) := by
  induction ds generalizing db q with
  | nil => simp
  | cons d ds ih =>
    rw [List.foldl_cons]
    have hstep : StateMachine.remove_or_create_remove_tasks eventId base [] (db, q) d =
        (DocumentModel.remove_document db d, q) := by
      unfold StateMachine.remove_or_create_remove_tasks
      rw [if_pos rfl]
    rw [hstep, ih]
    unfold DocumentModel.remove_document
    rw [List.filter_filter]
    apply List.filter_congr
    intro x _
    by_cases h1 : x.id = d.id <;> by_cases h2 : x.id ∈ ds.map (fun d => d.id) <;>
      simp [h1, h2]

/-- The inner per-index-module fold preserves existing task rows and creates
one REMOVE task per index module for the given document. -/
theorem inner_create_mem (eventId base : Nat) (d : DocRow) (ims : List Nat)
    (acc : DB × List IndexTaskRow) :
    (∀ t ∈ acc.1.indexTasks,
      t ∈ ((ims.foldl (StateMachine.create_remove_task_step eventId base d) acc).1).indexTasks) ∧
    (∀ im ∈ ims,
      ∃ t ∈ ((ims.foldl (StateMachine.create_remove_task_step eventId base d) acc).1).indexTasks,
        t.document = d.id ∧ t.indexModule = im ∧ t.operation = IndexOp.REMOVE) := by
  induction ims generalizing acc with
  | nil =>
    refine ⟨fun t ht => ht, ?_⟩
    intro im him
    cases him
  | cons im ims ih =>
    rw [List.foldl_cons]
    constructor
    · intro t ht
      apply (ih _).1
      unfold StateMachine.create_remove_task_step TaskModel.create_index_task
      simp only [List.mem_append]
      exact Or.inl ht
    · intro im' him'
      rcases List.mem_cons.mp him' with h | h
      · subst h
        refine ⟨(TaskModel.create_index_task acc.1 eventId im' base d IndexOp.REMOVE).2,
          ?_, rfl, rfl, rfl⟩
        apply (ih (StateMachine.create_remove_task_step eventId base d acc im')).1
        unfold StateMachine.create_remove_task_step TaskModel.create_index_task
        simp
      · exact (ih (StateMachine.create_remove_task_step eventId base d acc im)).2 im' h

/-- With at least one index module, the per-document fold preserves existing
task rows and creates one REMOVE task per index module for every listed
document. -/
theorem create_fold_tasks_mem (eventId base : Nat) (ims : List Nat)
    (hne : ¬ ims = []) (ds : List DocRow) (acc : DB × List IndexTaskRow) :
    (∀ t ∈ acc.1.indexTasks,
      t ∈ ((ds.foldl (StateMachine.remove_or_create_remove_tasks eventId base ims) acc).1).indexTasks) ∧
    (∀ d ∈ ds, ∀ im ∈ ims,
      ∃ t ∈ ((ds.foldl (StateMachine.remove_or_create_remove_tasks eventId base ims) acc).1).indexTasks,
        t.document = d.id ∧ t.indexModule = im ∧ t.operation = IndexOp.REMOVE) := by
  induction ds generalizing acc with
  | nil =>
    refine ⟨fun t ht => ht, ?_⟩
    intro d hd
    cases hd
  | cons d ds ih =>
    rw [List.foldl_cons]
    have hstep : StateMachine.remove_or_create_remove_tasks eventId base ims acc d =
        ims.foldl (StateMachine.create_remove_task_step eventId base d) acc := by
      unfold StateMachine.remove_or_create_remove_tasks
      rw [if_neg hne]
    constructor
    · intro t ht
      apply (ih _).1
      rw [hstep]
      exact (inner_create_mem eventId base d ims acc).1 t ht
    · intro d' hd' im him
      rcases List.mem_cons.mp hd' with h | h
      · subst h
        obtain ⟨t, htmem, hprops⟩ := (inner_create_mem eventId base d' ims acc).2 im him
        refine ⟨t, ?_, hprops⟩
        apply (ih _).1
        rw [hstep]
        exact htmem
      · exact (ih _).2 d' h im him

namespace ScenarioC2

/-- Machine after putting R₁, removing it while its preproc task pends, and
then completing that task with one produced document: the hash 0xAA has zero
references, yet its document survives with a pending CREATE index task. -/
def mViolation : Machine :=
  okOr (do
    let m1 ← StateMachine.put_resource env1 ScenarioS2.mScan 1 rsrc1 5
    let m2 ← StateMachine.remove_resource env1 m1 2 rsrc1
    let p ← StateMachine.pop_preproc_event (StateMachine.goto_processing m2)
    (StateMachine.complete_preproc_task env1 p.2 1 1
      [{ hash := 500, path := 6, meta := 0 }] true).mapError (fun e => e.1))
    ScenarioS2.mScan

/-- The state on which the hash-removed submission of the witness runs:
document D₁ and its single reference row persist while hash 0xAA has no
resource rows and no tasks (exactly the S2 state at the second removal). -/
def mPreSubmit : Machine :=
  { db :=
    { knbases := [{ id := 1, resourceModule := 7, resourceParams := 0 }],
      resources := [],
      documents := [ScenarioS2.d1],
      documentRefs := [{ id := 1, preprocModule := 100, base := 1,
                         resHash := 170, docHash := 500, ref := 1 }],
      preprocTasks := [], indexTasks := [],
      nextKbId := 2, nextDocId := 2, nextDocRefId := 2,
      nextPreprocTaskId := 2, nextIndexTaskId := 2, clock := 3 },
    preprocQueue := [], indexQueue := [], preprocPopCount := 0,
    indexPopCount := 0, removedEvents := [], state := SMState.SCANNING }

end ScenarioC2

/-- C2 counterexample: after the public call complete_preproc_task (on a task
whose resource was removed while it was pending), hash 0xAA has zero
references in base 1, yet the document derived from it is still present, has
no pending REMOVE index task, and a pending CREATE index task references it —
contradicting both the no-task and the REMOVE-or-deleted clauses of the
claim. -/
theorem C2_counterexample :
    StateMachine.resource_hash_refs ScenarioC2.mViolation.db 1 170 = 0 ∧
    (ScenarioC2.mViolation.db.documents.filter (fun d => d.resHash = 170)).length = 1 ∧
    ScenarioC2.mViolation.db.indexTasks.filter
      (fun t => t.document = 1 ∧ t.operation = IndexOp.REMOVE) = [] ∧
    ¬ ScenarioC2.mViolation.db.indexTasks.filter
      (fun t => t.document = 1 ∧ t.operation = IndexOp.CREATE) = [] := by
  decide

/-- C2 (amended): when resource_hash_refs(b, h) = 0, no preprocessing task
references h (this is forced by the definition of the count); and the
hash-removed submission guarantees that every document it collects (its
reference rows for h removed and total references zero) either is deleted
outright (base without index modules) or receives one pending REMOVE index
task per index module.  Documents of h that keep a pending CREATE index task
from the completion that consumed h are, however, retained with no REMOVE
task, as the counterexample shows. -/
theorem C2_amended (env : Env) (m : Machine) (eventId base resHash ct : Nat) :
    (∀ db b h, StateMachine.resource_hash_refs db b h = 0 →
      TaskModel.count_resource_refs db b h = 0) ∧
    (∀ d ∈ (StateMachine.collect_removed_documents env m.db base resHash ct).2,
      (env.indexModuleIds base = [] →
        ∀ x ∈ (StateMachine.submit_resource_hash_removed env m eventId base
          resHash ct).db.documents, ¬ x.id = d.id) ∧
      (∀ im ∈ env.indexModuleIds base,
        ∃ t ∈ (StateMachine.submit_resource_hash_removed env m eventId base
            resHash ct).db.indexTasks,
          t.document = d.id ∧ t.indexModule = im ∧ t.operation = IndexOp.REMOVE)) := by
  have hdb : (StateMachine.submit_resource_hash_removed env m eventId base resHash ct).db =
      ((StateMachine.collect_removed_documents env m.db base resHash ct).2.foldl
        (StateMachine.remove_or_create_remove_tasks eventId base (env.indexModuleIds base))
        ((StateMachine.collect_removed_documents env m.db base resHash ct).1,
          m.indexQueue)).1 := rfl
  constructor
  · intro db b h hz
    unfold StateMachine.resource_hash_refs at hz
    omega
  · intro d hd
    constructor
    · intro hemp x hx
      rw [hdb, hemp, remove_fold_docs] at hx
      have hx' := List.mem_filter.mp hx
      simp only [decide_eq_true_eq] at hx'
      intro he
      exact hx'.2 (by rw [he]; exact List.mem_map.mpr ⟨d, hd, rfl⟩)
    · intro im him
      have hne : ¬ env.indexModuleIds base = [] := by
        intro he
        rw [he] at him
        cases him
      rw [hdb]
      exact (create_fold_tasks_mem eventId base (env.indexModuleIds base) hne
        (StateMachine.collect_removed_documents env m.db base resHash ct).2
        ((StateMachine.collect_removed_documents env m.db base resHash ct).1,
          m.indexQueue)).2 d hd im him

/-- C2 amended witness: on the concrete pre-submission S2 state, the count
clause holds for hash 0xAA and the submission creates the pending REMOVE
index task for document D₁ under index module 200. -/
theorem C2_amended_witness :
    TaskModel.count_resource_refs ScenarioC2.mPreSubmit.db 1 170 = 0 ∧
    (∃ t ∈ (StateMachine.submit_resource_hash_removed env1 ScenarioC2.mPreSubmit
        4 1 170 10).db.indexTasks,
      t.document = ScenarioS2.d1.id ∧ t.indexModule = 200 ∧
      t.operation = IndexOp.REMOVE) :=
  ⟨(C2_amended env1 ScenarioC2.mPreSubmit 4 1 170 10).1 ScenarioC2.mPreSubmit.db
      1 170 (by decide),
   ((C2_amended env1 ScenarioC2.mPreSubmit 4 1 170 10).2 ScenarioS2.d1
      (by decide)).2 200 (by decide)⟩

/-- Absence of a CREATE/REMOVE clash: among the pending index tasks, no two
tasks of the same (base, document, index_module) where one is a CREATE and
the other a REMOVE. -/
def noConflictTasks (ts : List IndexTaskRow) : Prop :=
  ∀ t1 ∈ ts, ∀ t2 ∈ ts,
    t1.base = t2.base → t1.document = t2.document →
    t1.indexModule = t2.indexModule →
    t1.operation = IndexOp.CREATE → ¬ t2.operation = IndexOp.REMOVE

/-- Conflict-freedom of a concrete task table is checkable. -/
instance noConflictTasksDec (ts : List IndexTaskRow) :
    Decidable (noConflictTasks ts) := by
  unfold noConflictTasks
  infer_instance

/-- Conflict-freedom restricts to any sub-collection. -/
theorem noConflictTasks_of_subset {ts ts' : List IndexTaskRow}
    (hsub : ∀ t ∈ ts', t ∈ ts) (h : noConflictTasks ts) : noConflictTasks ts' :=
  fun t1 h1 t2 h2 => h t1 (hsub t1 h1) t2 (hsub t2 h2)

/-- Appending a document never touches the index-task table. -/
theorem append_document_indexTasks (db : DB) (pm b rh dh p mt : Nat) :
    (DocumentModel.append_document db pm b rh dh p mt).1.indexTasks =
      db.indexTasks := by
  unfold DocumentModel.append_document
  cases db.documents.find?
    (fun d => d.preprocModule = pm ∧ d.base = b ∧ d.docHash = dh) <;> rfl

/-- The document returned by append_document belongs to the requested base. -/
theorem append_document_base (db : DB) (pm b rh dh p mt : Nat) :
    (DocumentModel.append_document db pm b rh dh p mt).2.base = b := by
  unfold DocumentModel.append_document
  cases hf : db.documents.find?
    (fun d => d.preprocModule = pm ∧ d.base = b ∧ d.docHash = dh) with
  | none => rfl
  | some d =>
    have hp := List.find?_some hf
    simp only [decide_eq_true_eq] at hp
    exact hp.2.1

/-- One step of the per-index-module loop preserves conflict-freedom: a
CREATE is only added when the pair has no pending task at all, and the
REMOVE-cancellation branch only deletes. -/
theorem handle_preserve_noConflict (eventId b : Nat) (d : DocRow) (mm : Machine)
    (im : Nat) (hb : d.base = b)
    (h : noConflictTasks mm.db.indexTasks) :
    noConflictTasks
      (StateMachine.handle_document_index eventId b d mm im).db.indexTasks := by
  unfold StateMachine.handle_document_index
  split
  next hh =>
    have hnil : TaskModel.get_index_tasks_of_document mm.db im d = [] :=
      List.head?_eq_none_iff.mp hh
    unfold TaskModel.get_index_tasks_of_document at hnil
    intro t1 h1 t2 h2 hbq hdq hiq hc hr
    simp only [TaskModel.create_index_task, List.mem_append,
      List.mem_singleton] at h1 h2
    rcases h1 with h1 | h1 <;> rcases h2 with h2 | h2
    · exact h t1 h1 t2 h2 hbq hdq hiq hc hr
    · rw [h2] at hr
      cases hr
    · rw [h1] at hbq hdq hiq hc
      have ht2 : t2 ∈ mm.db.indexTasks.filter
          (fun t => t.base = d.base ∧ t.indexModule = im ∧ t.document = d.id) := by
        rw [List.mem_filter]
        refine ⟨h2, ?_⟩
        simp only [decide_eq_true_eq]
        exact ⟨by rw [← hbq, hb], by rw [← hiq], by rw [← hdq]⟩
      rw [hnil] at ht2
      cases ht2
    · rw [h2] at hr
      cases hr
  next lastTask hh =>
    by_cases hop : lastTask.operation = IndexOp.REMOVE
    · rw [if_pos hop]
      apply noConflictTasks_of_subset _ h
      intro t ht
      unfold TaskModel.remove_index_task at ht
      exact (List.mem_filter.mp ht).1
    · rw [if_neg hop]
      exact h

/-- The collection fold only rewrites document reference rows; the index-task
table is untouched. -/
theorem collect_fold_frame (base resHash : Nat) (mods : List Nat)
    (acc : DB × List DocRow) :
    ((mods.foldl (StateMachine.collect_step base resHash) acc).1).indexTasks =
      acc.1.indexTasks := by
  induction mods generalizing acc with
  | nil => rfl
  | cons pm mods ih =>
    rw [List.foldl_cons, ih]
    rfl

/-- The collection phase preserves the index-task table. -/
theorem collect_frame (env : Env) (db : DB) (base resHash ct : Nat) :
    (StateMachine.collect_removed_documents env db base resHash ct).1.indexTasks =
      db.indexTasks := by
  unfold StateMachine.collect_removed_documents
  exact collect_fold_frame base resHash _ _

/-- Documents recorded by the collection fold have no pending CREATE index
task (their total references were zero, and CREATE counts never change during
the collection). -/
theorem collect_fold_mem (base resHash : Nat) (T : List IndexTaskRow)
    (mods : List Nat) (acc : DB × List DocRow)
    (hT : acc.1.indexTasks = T)
    (hprev : ∀ d ∈ acc.2,
      T.filter (fun t => t.document = d.id ∧ t.operation = IndexOp.CREATE) = []) :
    ∀ d ∈ (mods.foldl (StateMachine.collect_step base resHash) acc).2,
      T.filter (fun t => t.document = d.id ∧ t.operation = IndexOp.CREATE) = [] := by
  induction mods generalizing acc with
  | nil => exact hprev
  | cons pm mods ih =>
    rw [List.foldl_cons]
    apply ih
    · rw [← hT]
      rfl
    · intro d hd
      unfold StateMachine.collect_step at hd
      rcases List.mem_append.mp hd with hd | hd
      · exact hprev d hd
      · have hz := (List.mem_filter.mp hd).2
        simp only [decide_eq_true_eq] at hz
        unfold StateMachine.document_refs at hz
        have hcz : TaskModel.count_document_refs
            (DocumentModel.remove_references_from_resource acc.1 pm base resHash) d = 0 := by
          omega
        unfold TaskModel.count_document_refs at hcz
        rw [← List.length_eq_zero]
        rw [← hT]
        exact hcz

/-- Deduplication only drops elements. -/
theorem dedupByIdAux_subset (l : List DocRow) : ∀ (seen : List Nat),
    ∀ x ∈ StateMachine.dedupByIdAux seen l, x ∈ l := by
  induction l with
  | nil => intro seen x hx; cases hx
  | cons d rest ih =>
    intro seen x hx
    unfold StateMachine.dedupByIdAux at hx
    by_cases hmem : d.id ∈ seen
    · rw [if_pos hmem] at hx
      exact List.mem_cons_of_mem d (ih seen x hx)
    · rw [if_neg hmem] at hx
      rcases List.mem_cons.mp hx with hx | hx
      · rw [hx]; exact List.mem_cons_self d rest
      · exact List.mem_cons_of_mem d (ih _ x hx)

/-- Every document the collection phase reports has no pending CREATE index
task in the original database. -/
theorem collect_mem (env : Env) (db : DB) (base resHash ct : Nat) :
    ∀ d ∈ (StateMachine.collect_removed_documents env db base resHash ct).2,
      db.indexTasks.filter
        (fun t => t.document = d.id ∧ t.operation = IndexOp.CREATE) = [] := by
  intro d hd
  have hd0 : d ∈ insertionSortBy (fun a b => a.id ≤ b.id)
      (StateMachine.dedupById
        (((env.preprocessModuleIds base ct).foldl
          (StateMachine.collect_step base resHash) (db, [])).2)) := hd
  have hd1 := (insertionSortBy_perm (fun (a b : DocRow) => decide (a.id ≤ b.id)) _).mem_iff.mp hd0
  have hd2 := dedupByIdAux_subset _ [] d hd1
  exact collect_fold_mem base resHash db.indexTasks _ (db, []) rfl
    (by intro x hx; cases hx) d hd2

/-- Membership structure of the inner REMOVE-creation fold: a task of the
result was already present or is a REMOVE task for the given document. -/
theorem inner_tasks_structure (eventId base : Nat) (d : DocRow) (ims : List Nat)
    (acc : DB × List IndexTaskRow) :
    ∀ t ∈ ((ims.foldl (StateMachine.create_remove_task_step eventId base d) acc).1).indexTasks,
      t ∈ acc.1.indexTasks ∨
        (t.operation = IndexOp.REMOVE ∧ t.document = d.id) := by
  induction ims generalizing acc with
  | nil => intro t ht; exact Or.inl ht
  | cons im ims ih =>
    intro t ht
    rw [List.foldl_cons] at ht
    rcases ih (StateMachine.create_remove_task_step eventId base d acc im) t ht with h | h
    · unfold StateMachine.create_remove_task_step TaskModel.create_index_task at h
      simp only [List.mem_append, List.mem_singleton] at h
      rcases h with h | h
      · exact Or.inl h
      · exact Or.inr ⟨by rw [h], by rw [h]⟩
    · exact Or.inr h

/-- Membership structure of the per-document fold: a task of the result was
already present or is a REMOVE task for one of the listed documents. -/
theorem fold_tasks_structure (eventId base : Nat) (ims : List Nat)
    (ds : List DocRow) (acc : DB × List IndexTaskRow) :
    ∀ t ∈ ((ds.foldl (StateMachine.remove_or_create_remove_tasks eventId base ims) acc).1).indexTasks,
      t ∈ acc.1.indexTasks ∨
        (t.operation = IndexOp.REMOVE ∧ ∃ d ∈ ds, t.document = d.id) := by
  induction ds generalizing acc with
  | nil => intro t ht; exact Or.inl ht
  | cons d ds ih =>
    intro t ht
    rw [List.foldl_cons] at ht
    rcases ih (StateMachine.remove_or_create_remove_tasks eventId base ims acc d) t ht with h | h
    · unfold StateMachine.remove_or_create_remove_tasks at h
      by_cases hemp : ims = []
      · rw [if_pos hemp] at h
        exact Or.inl h
      · rw [if_neg hemp] at h
        rcases inner_tasks_structure eventId base d ims acc t h with h | h
        · exact Or.inl h
        · exact Or.inr ⟨h.1, d, List.mem_cons_self d ds, h.2⟩
    · exact Or.inr ⟨h.1, h.2.elim (fun d' hd' => ⟨d', List.mem_cons_of_mem d hd'.1, hd'.2⟩)⟩

/-- The hash-removed submission preserves conflict-freedom: it creates only
REMOVE tasks, and only for documents that have no pending CREATE at all. -/
theorem submit_preserves_noConflict (env : Env) (m : Machine)
    (eid b h ct : Nat) (hnc : noConflictTasks m.db.indexTasks) :
    noConflictTasks
      (StateMachine.submit_resource_hash_removed env m eid b h ct).db.indexTasks := by
  have hdb : (StateMachine.submit_resource_hash_removed env m eid b h ct).db =
      ((StateMachine.collect_removed_documents env m.db b h ct).2.foldl
        (StateMachine.remove_or_create_remove_tasks eid b (env.indexModuleIds b))
        ((StateMachine.collect_removed_documents env m.db b h ct).1,
          m.indexQueue)).1 := rfl
  rw [hdb]
  intro t1 h1 t2 h2 hbe hde hie hc hr
  have hcol : ((StateMachine.collect_removed_documents env m.db b h ct).1,
      m.indexQueue).1.indexTasks = m.db.indexTasks := collect_frame env m.db b h ct
  have hs1 := fold_tasks_structure eid b (env.indexModuleIds b) _ _ t1 h1
  have hs2 := fold_tasks_structure eid b (env.indexModuleIds b) _ _ t2 h2
  rcases hs1 with h1' | ⟨hop1, _⟩
  · rw [hcol] at h1'
    rcases hs2 with h2' | ⟨_, d, hdmem, hdoc⟩
    · rw [hcol] at h2'
      exact hnc t1 h1' t2 h2' hbe hde hie hc hr
    · have hfil := collect_mem env m.db b h ct d hdmem
      have ht1 : t1 ∈ m.db.indexTasks.filter
          (fun t => t.document = d.id ∧ t.operation = IndexOp.CREATE) := by
        rw [List.mem_filter]
        refine ⟨h1', ?_⟩
        simp only [decide_eq_true_eq]
        exact ⟨by rw [hde, hdoc], hc⟩
      rw [hfil] at ht1
      cases ht1
  · rw [hop1] at hc
    cases hc

/-- The per-index-module loop preserves conflict-freedom for a document of
the right base. -/
theorem handle_fold_preserve (eventId b : Nat) (d : DocRow) (hb : d.base = b)
    (ims : List Nat) (mm : Machine) (h : noConflictTasks mm.db.indexTasks) :
    noConflictTasks
      ((ims.foldl (StateMachine.handle_document_index eventId b d) mm).db.indexTasks) := by
  induction ims generalizing mm with
  | nil => exact h
  | cons im ims ih =>
    rw [List.foldl_cons]
    exact ih _ (handle_preserve_noConflict eventId b d mm im hb h)

/-- The per-description loop of complete_preproc_task preserves
conflict-freedom. -/
theorem descr_fold_preserve (env : Env) (pm b rh eid : Nat)
    (descrs : List DocumentDescription) (mm : Machine)
    (h : noConflictTasks mm.db.indexTasks) :
    noConflictTasks
      ((descrs.foldl (StateMachine.complete_one_description env pm b rh eid) mm).db.indexTasks) := by
  induction descrs generalizing mm with
  | nil => exact h
  | cons descr descrs ih =>
    rw [List.foldl_cons]
    apply ih
    unfold StateMachine.complete_one_description
    apply handle_fold_preserve eid b _
      (append_document_base mm.db pm b rh descr.hash descr.path descr.meta)
    show noConflictTasks
      (DocumentModel.append_document mm.db pm b rh descr.hash descr.path descr.meta).1.indexTasks
    rw [append_document_indexTasks]
    exact h

/-- The closing hash loop of complete_preproc_task preserves
conflict-freedom. -/
theorem hash_fold_preserve (env : Env) (eid b : Nat) (ps : List (Nat × Nat))
    (mm : Machine) (h : noConflictTasks mm.db.indexTasks) :
    noConflictTasks
      ((ps.foldl (StateMachine.submit_if_unreferenced env eid b) mm).db.indexTasks) := by
  induction ps generalizing mm with
  | nil => exact h
  | cons p ps ih =>
    rw [List.foldl_cons]
    apply ih
    unfold StateMachine.submit_if_unreferenced
    by_cases hz : StateMachine.resource_hash_refs mm.db b p.1 = 0
    · rw [if_pos hz]
      exact submit_preserves_noConflict env mm eid b p.1 p.2 h
    · rw [if_neg hz]
      exact h

/-- C7: CREATE and REMOVE index tasks for one (base, document, index_module)
pair never accumulate.  (1) The per-index-module loop of
complete_preproc_task, upon re-producing a document whose pair has exactly a
pending REMOVE task, deletes that REMOVE and creates nothing — the task table
shrinks by exactly that row and the in-memory queue is untouched.  (2) The
hash-removed submission preserves conflict-freedom: it inserts REMOVE tasks
only for documents with no pending CREATE at all.  (3) A successful
complete_preproc_task preserves conflict-freedom of the index-task table. -/
theorem C7_no_accumulation :
    (∀ (eventId b : Nat) (d : DocRow) (mm : Machine) (im : Nat)
        (tstar : IndexTaskRow),
      TaskModel.get_index_tasks_of_document mm.db im d = [tstar] →
      tstar.operation = IndexOp.REMOVE →
      (StateMachine.handle_document_index eventId b d mm im).db.indexTasks =
        mm.db.indexTasks.filter (fun x => ¬ x.id = tstar.id) ∧
      (StateMachine.handle_document_index eventId b d mm im).indexQueue =
        mm.indexQueue) ∧
    (∀ (env : Env) (m : Machine) (eid b h ct : Nat),
      noConflictTasks m.db.indexTasks →
      noConflictTasks
        (StateMachine.submit_resource_hash_removed env m eid b h ct).db.indexTasks) ∧
    (∀ (env : Env) (m : Machine) (b tid : Nat)
        (descrs : List DocumentDescription) (commitOk : Bool) (mT : Machine),
      StateMachine.complete_preproc_task env m b tid descrs commitOk =
        Except.ok mT →
      noConflictTasks m.db.indexTasks → noConflictTasks mT.db.indexTasks) := by
  refine ⟨?_, ?_, ?_⟩
  · intro eventId b d mm im tstar hts hop
    have hred : StateMachine.handle_document_index eventId b d mm im =
        { mm with db := TaskModel.remove_index_task mm.db tstar } := by
      unfold StateMachine.handle_document_index
      rw [hts]
      simp only [List.head?_cons]
      rw [if_pos hop]
    rw [hred]
    constructor
    · show (TaskModel.remove_index_task mm.db tstar).indexTasks = _
      unfold TaskModel.remove_index_task
      rfl
    · rfl
  · exact fun env m eid b h ct hnc => submit_preserves_noConflict env m eid b h ct hnc
  · intro env m b tid descrs commitOk mT hok hnc
    unfold StateMachine.complete_preproc_task at hok
    by_cases hs : ¬ m.state = SMState.PROCESSING
    · rw [if_pos hs] at hok
      cases hok
    · rw [if_neg hs] at hok
      cases htask : TaskModel.get_preproc_task m.db b tid with
      | none =>
        rw [htask] at hok
        cases hok
      | some task =>
        rw [htask] at hok
        cases commitOk with
        | false => simp at hok
        | true =>
          cases hok
          apply hash_fold_preserve
          apply descr_fold_preserve
          exact hnc

/-- C7 witness: on the concrete S2 machine holding the popped REMOVE task I₂,
the per-index-module step deletes exactly I₂; and the hash-removed submission
on the concrete pre-submission state keeps the table conflict-free. -/
theorem C7_no_accumulation_witness :
    (StateMachine.handle_document_index 9 1 ScenarioS2.d1
        ScenarioS2.mPoppedRemove 200).db.indexTasks =
      ScenarioS2.mPoppedRemove.db.indexTasks.filter
        (fun x => ¬ x.id = ScenarioS2.i2.id) ∧
    noConflictTasks
      (StateMachine.submit_resource_hash_removed env1 ScenarioC2.mPreSubmit
        4 1 170 10).db.indexTasks :=
  ⟨(C7_no_accumulation.1 9 1 ScenarioS2.d1 ScenarioS2.mPoppedRemove 200
      ScenarioS2.i2 (by decide) (by decide)).1,
   C7_no_accumulation.2.1 env1 ScenarioC2.mPreSubmit 4 1 170 10 (by decide)⟩

namespace ScenarioC4

/-- Machine after putting two resources with identical hash 0xAA and then
removing both, all within one SCANNING phase while the single preprocessing
task pends. -/
def mAfterAll : Machine :=
  okOr (do
    let m1 ← StateMachine.put_resource env1 ScenarioS2.mScan 1 rsrc1 5
    let m2 ← StateMachine.put_resource env1 m1 2 rsrc2 5
    let m3 ← StateMachine.remove_resource env1 m2 3 rsrc1
    StateMachine.remove_resource env1 m3 4 rsrc2) ScenarioS2.mScan

end ScenarioC4

/-- C4 counterexample: with N = 2 resources of identical hash, the puts
create exactly one preprocessing task and removing the first resource leaves
everything intact — but removing the N-th (second) resource emits NO
hash-removed submission: no RemovedResourceEvent is queued and no index task
or document change occurs, because the still-pending preprocessing task keeps
the hash's reference count at 1. -/
theorem C4_counterexample :
    (TaskModel.get_preproc_tasks_of_hash ScenarioC4.mAfterAll.db 1 170).length = 1 ∧
    ScenarioC4.mAfterAll.removedEvents = [] ∧
    ScenarioC4.mAfterAll.db.indexTasks = [] ∧
    ScenarioC4.mAfterAll.db.documents = [] ∧
    ScenarioC4.mAfterAll.db.resources = [] := by
  decide

/-- First put of a fresh resource whose hash had no references: the resource
row and one preprocessing task (single applicable module) are inserted, the
task is queued, and any queued removed-resource event for the hash is
dropped. -/
theorem put_first (env : Env) (m : Machine) (r : ResourceRow) (eid path pm : Nat)
    (hstate : m.state = SMState.SCANNING)
    (hnew : ResourceModel.get_resource m.db r.base r.rid = none)
    (hrefs : StateMachine.resource_hash_refs m.db r.base r.hash = 0)
    (hmods : env.preprocessModuleIds r.base r.contentType = [pm]) :
    StateMachine.put_resource env m eid r path =
      Except.ok { m with
        db := { m.db with
          resources := m.db.resources ++ [r],
          preprocTasks := m.db.preprocTasks ++ [createdTask m eid r path pm],
          nextPreprocTaskId := m.db.nextPreprocTaskId + 1,
          clock := m.db.clock + 1 },
        preprocQueue := m.preprocQueue ++ [createdTask m eid r path pm],
        removedEvents := StateMachine.removeFirstWithHash m.removedEvents r.hash } := by
  obtain ⟨hcr, hf1, hf2⟩ := refs_zero_parts hrefs
  unfold StateMachine.put_resource
  rw [hstate]
  simp only [hnew, hrefs]
  unfold StateMachine.submit_resource_hash_created
  unfold TaskModel.get_preproc_tasks_of_hash
  simp only [ResourceModel.save_resource, hmods, hf1]
  simp only [List.foldl_nil, List.foldl_cons]
  unfold TaskModel.create_preproc_task
  simp only [Option.map_none']
  simp only [createdTask]
  simp

/-- Adding further fresh resources whose hash is already referenced only
appends their rows: the reference count is non-zero, so no submission runs
and no task is created. -/
theorem put_rest (env : Env) (b h ct eid path : Nat) :
    ∀ (rs : List ResourceRow) (mm : Machine),
    mm.state = SMState.SCANNING →
    (∀ r ∈ rs, r.base = b ∧ r.hash = h ∧ r.contentType = ct) →
    ((rs.map (fun r => r.rid)).Nodup) →
    (∀ r ∈ rs, ∀ x ∈ mm.db.resources, ¬ (x.base = b ∧ x.rid = r.rid)) →
    (¬ ResourceModel.count_resources mm.db b h = 0) →
    rs.foldlM (fun acc r => StateMachine.put_resource env acc eid r path) mm =
      Except.ok { mm with db := { mm.db with resources := mm.db.resources ++ rs } } := by
  intro rs
  induction rs with
  | nil =>
    intro mm _ _ _ _ _
    simp only [List.foldlM_nil, List.append_nil]
    rfl
  | cons r rs ih =>
    intro mm hstate hkeys hnodup hfresh hcount
    obtain ⟨hrb, hrh, hrc⟩ := hkeys r (List.mem_cons_self r rs)
    have hnew : ResourceModel.get_resource mm.db r.base r.rid = none := by
      unfold ResourceModel.get_resource
      rw [List.find?_eq_none]
      intro x hx
      simp only [decide_eq_true_eq]
      intro hpx
      exact hfresh r (List.mem_cons_self r rs) x hx ⟨by rw [← hrb]; exact hpx.1, hpx.2⟩
    have hrefs : ¬ StateMachine.resource_hash_refs mm.db r.base r.hash = 0 := by
      unfold StateMachine.resource_hash_refs ResourceModel.count_resources
      rw [hrb, hrh]
      unfold ResourceModel.count_resources at hcount
      omega
    have hput : StateMachine.put_resource env mm eid r path =
        Except.ok { mm with db := ResourceModel.save_resource mm.db r } := by
      unfold StateMachine.put_resource
      rw [hstate]
      simp only [hnew, if_neg hrefs]
      simp
    have hrest := ih { mm with db := ResourceModel.save_resource mm.db r }
      (by exact hstate)
      (fun x hx => hkeys x (List.mem_cons_of_mem r hx))
      (List.nodup_cons.mp (by exact hnodup)).2
      (by
        intro r' hr' x hx
        have hx' : x ∈ mm.db.resources ++ [r] := hx
        rcases List.mem_append.mp hx' with hx2 | hx2
        · exact hfresh r' (List.mem_cons_of_mem r hr') x hx2
        · intro hpx
          rw [List.mem_singleton.mp hx2] at hpx
          have : r.rid ∈ rs.map (fun r => r.rid) :=
            List.mem_map.mpr ⟨r', hr', hpx.2.symm⟩
          exact (List.nodup_cons.mp (by exact hnodup)).1 this)
      (by
        show ¬ ResourceModel.count_resources (ResourceModel.save_resource mm.db r) b h = 0
        unfold ResourceModel.count_resources ResourceModel.save_resource
        unfold ResourceModel.count_resources at hcount
        simp only [List.filter_append, List.length_append]
        omega)
    rw [List.foldlM_cons, hput]
    show (rs.foldlM (fun acc r => StateMachine.put_resource env acc eid r path) _) = _
    rw [hrest]
    unfold ResourceModel.save_resource
    simp [List.append_assoc]

/-- Row-key predicate for the batch-removal lemma: rows that do not belong to
any of the removed (base, rid) keys. -/
def removedKeyPred (b : Nat) (rs : List ResourceRow) (x : ResourceRow) : Bool :=
  ¬ (x.base = b ∧ x.rid ∈ rs.map (fun r => r.rid))

/-- Removing resources whose hash keeps at least one preprocessing-task
reference only deletes their rows: the reference count never reaches zero, so
no submission runs. -/
theorem remove_all (env : Env) (b h ct eid : Nat) :
    ∀ (rs : List ResourceRow) (mm : Machine),
    mm.state = SMState.SCANNING →
    (∀ r ∈ rs, r.base = b ∧ r.hash = h ∧ r.contentType = ct) →
    ((rs.map (fun r => r.rid)).Nodup) →
    (∀ r ∈ rs, ∃ x ∈ mm.db.resources, x.base = b ∧ x.rid = r.rid) →
    (¬ TaskModel.count_resource_refs mm.db b h = 0) →
    rs.foldlM (fun acc r => StateMachine.remove_resource env acc eid r) mm =
      Except.ok { mm with db := { mm.db with resources := mm.db.resources.filter (removedKeyPred b rs) } } := by
  intro rs
  induction rs with
  | nil =>
    intro mm _ _ _ _ _
    simp only [List.foldlM_nil]
    have hfe : mm.db.resources.filter (removedKeyPred b []) = mm.db.resources := by
      rw [List.filter_eq_self]
      intro a _
      unfold removedKeyPred
      simp
    rw [hfe]
    rfl
  | cons r rs ih =>
    intro mm hstate hkeys hnodup hpresent hcount
    obtain ⟨hrb, hrh, hrc⟩ := hkeys r (List.mem_cons_self r rs)
    obtain ⟨x0, hx0mem, hx0b, hx0r⟩ := hpresent r (List.mem_cons_self r rs)
    have hfound : ¬ ResourceModel.get_resource mm.db r.base r.rid = none := by
      unfold ResourceModel.get_resource
      intro hnone
      have hh := List.find?_eq_none.mp hnone x0 hx0mem
      simp only [decide_eq_true_eq] at hh
      exact hh ⟨by rw [hrb]; exact hx0b, hx0r⟩
    have hrefs : ¬ StateMachine.resource_hash_refs
        (ResourceModel.remove_resource mm.db r.base r.rid) r.base r.hash = 0 := by
      unfold StateMachine.resource_hash_refs
      have hsame : TaskModel.count_resource_refs
          (ResourceModel.remove_resource mm.db r.base r.rid) r.base r.hash =
          TaskModel.count_resource_refs mm.db r.base r.hash := rfl
      rw [hsame, hrb, hrh]
      omega
    have hrem : StateMachine.remove_resource env mm eid r =
        Except.ok { mm with db := ResourceModel.remove_resource mm.db r.base r.rid } := by
      unfold StateMachine.remove_resource
      rw [hstate]
      cases hg : ResourceModel.get_resource mm.db r.base r.rid with
      | none => exact absurd hg hfound
      | some x =>
        simp only [if_neg hrefs]
        simp
    have hrest := ih { mm with db := ResourceModel.remove_resource mm.db r.base r.rid }
      (by exact hstate)
      (fun x hx => hkeys x (List.mem_cons_of_mem r hx))
      (List.nodup_cons.mp (by exact hnodup)).2
      (by
        intro r' hr'
        obtain ⟨x, hxmem, hxb, hxr⟩ := hpresent r' (List.mem_cons_of_mem r hr')
        refine ⟨x, ?_, hxb, hxr⟩
        show x ∈ mm.db.resources.filter
          (fun y => ¬ (y.base = r.base ∧ y.rid = r.rid))
        rw [List.mem_filter]
        refine ⟨hxmem, ?_⟩
        have hrr : ¬ x.rid = r.rid := by
          intro he
          have : r.rid ∈ rs.map (fun r => r.rid) :=
            List.mem_map.mpr ⟨r', hr', by rw [← hxr, he]⟩
          exact (List.nodup_cons.mp (by exact hnodup)).1 this
        simp [hrr])
      (by
        show ¬ TaskModel.count_resource_refs
          (ResourceModel.remove_resource mm.db r.base r.rid) b h = 0
        have hsame : TaskModel.count_resource_refs
            (ResourceModel.remove_resource mm.db r.base r.rid) b h =
            TaskModel.count_resource_refs mm.db b h := rfl
        rw [hsame]
        exact hcount)
    rw [List.foldlM_cons, hrem]
    show (rs.foldlM (fun acc r => StateMachine.remove_resource env acc eid r) _) = _
    rw [hrest]
    have hff : (mm.db.resources.filter (fun y => ¬ (y.base = r.base ∧ y.rid = r.rid))).filter (removedKeyPred b rs) =
        mm.db.resources.filter (removedKeyPred b (r :: rs)) := by
      rw [List.filter_filter]
      apply List.filter_congr
      intro x _
      unfold removedKeyPred
      by_cases h1 : x.base = b <;> by_cases h2 : x.rid = r.rid <;>
        by_cases h3 : x.rid ∈ rs.map (fun r => r.rid) <;>
        simp [h1, h2, h3, hrb]
    show Except.ok _ = _
    rw [show ResourceModel.remove_resource mm.db r.base r.rid =
      { mm.db with resources := mm.db.resources.filter (fun y => ¬ (y.base = r.base ∧ y.rid = r.rid)) } from rfl]
    rw [hff]

/-- C4 (amended): adding N ≥ 1 fresh resources with an identical hash (one
applicable preprocessing module, hash unreferenced beforehand) creates
exactly one preprocessing task — the first put; the others only insert rows;
removing all N resources within the same SCANNING phase, while that task is
still pending, leaves the task intact and emits NO hash-removed submission:
the task itself holds a reference, so the count never reaches zero.  The
document, document-ref and index-task tables, the index queue and the
resource table return to their initial state, and no RemovedResourceEvent is
queued for the hash; the submission is deferred to the task's completion. -/
theorem C4_amended (env : Env) (m : Machine) (r : ResourceRow)
    (rest : List ResourceRow) (eid path pm : Nat)
    (hstate : m.state = SMState.SCANNING)
    (hkeys : ∀ r' ∈ rest, r'.base = r.base ∧ r'.hash = r.hash ∧
      r'.contentType = r.contentType)
    (hnodup : ((r :: rest).map (fun x => x.rid)).Nodup)
    (hfresh : ∀ r' ∈ r :: rest, ∀ x ∈ m.db.resources,
      ¬ (x.base = r.base ∧ x.rid = r'.rid))
    (hrefs : StateMachine.resource_hash_refs m.db r.base r.hash = 0)
    (hmods : env.preprocessModuleIds r.base r.contentType = [pm])
    (hev : (m.removedEvents.filter (fun e => e.hash = r.hash)).length ≤ 1) :
    ∃ mF,
      (((r :: rest).foldlM
          (fun acc x => StateMachine.put_resource env acc eid x path) m).bind
        (fun mm => (r :: rest).foldlM
          (fun acc x => StateMachine.remove_resource env acc eid x) mm)) =
        Except.ok mF ∧
      mF.db.preprocTasks = m.db.preprocTasks ++ [createdTask m eid r path pm] ∧
      (TaskModel.get_preproc_tasks_of_hash mF.db r.base r.hash).length = 1 ∧
      mF.db.resources = m.db.resources ∧
      mF.db.documents = m.db.documents ∧
      mF.db.documentRefs = m.db.documentRefs ∧
      mF.db.indexTasks = m.db.indexTasks ∧
      mF.indexQueue = m.indexQueue ∧
      mF.removedEvents.filter (fun e => e.hash = r.hash) = [] ∧
      mF.state = SMState.SCANNING := by
  obtain ⟨hcr, hf1, hf2⟩ := refs_zero_parts hrefs
  have hnew : ResourceModel.get_resource m.db r.base r.rid = none := by
    unfold ResourceModel.get_resource
    rw [List.find?_eq_none]
    intro x hx
    simp only [decide_eq_true_eq]
    exact fun hpx => hfresh r (List.mem_cons_self r rest) x hx hpx
  have hput1 := put_first env m r eid path pm hstate hnew hrefs hmods
  have hputs := put_rest env r.base r.hash r.contentType eid path rest
    { m with
      db := { m.db with
        resources := m.db.resources ++ [r],
        preprocTasks := m.db.preprocTasks ++ [createdTask m eid r path pm],
        nextPreprocTaskId := m.db.nextPreprocTaskId + 1,
        clock := m.db.clock + 1 },
      preprocQueue := m.preprocQueue ++ [createdTask m eid r path pm],
      removedEvents := StateMachine.removeFirstWithHash m.removedEvents r.hash }
    (by exact hstate)
    hkeys
    (List.nodup_cons.mp (by exact hnodup)).2
    (by
      intro r' hr' x hx
      have hx' : x ∈ m.db.resources ++ [r] := hx
      rcases List.mem_append.mp hx' with hx2 | hx2
      · exact hfresh r' (List.mem_cons_of_mem r hr') x hx2
      · intro hpx
        rw [List.mem_singleton.mp hx2] at hpx
        have : r.rid ∈ rest.map (fun x => x.rid) :=
          List.mem_map.mpr ⟨r', hr', hpx.2.symm⟩
        exact (List.nodup_cons.mp (by exact hnodup)).1 this)
    (by
      show ¬ ((m.db.resources ++ [r]).filter
        (fun x => x.base = r.base ∧ x.hash = r.hash)).length = 0
      rw [List.filter_append]
      unfold ResourceModel.count_resources at hcr
      simp [List.length_eq_zero.mp hcr])
  have hremoves := remove_all env r.base r.hash r.contentType eid (r :: rest)
    { m with
      db := { m.db with
        resources := (m.db.resources ++ [r]) ++ rest,
        preprocTasks := m.db.preprocTasks ++ [createdTask m eid r path pm],
        nextPreprocTaskId := m.db.nextPreprocTaskId + 1,
        clock := m.db.clock + 1 },
      preprocQueue := m.preprocQueue ++ [createdTask m eid r path pm],
      removedEvents := StateMachine.removeFirstWithHash m.removedEvents r.hash }
    (by exact hstate)
    (by
      intro r' hr'
      rcases List.mem_cons.mp hr' with h | h
      · rw [h]; exact ⟨rfl, rfl, rfl⟩
      · exact hkeys r' h)
    (by exact hnodup)
    (by
      intro r' hr'
      refine ⟨r', ?_, ?_, rfl⟩
      · show r' ∈ (m.db.resources ++ [r]) ++ rest
        rcases List.mem_cons.mp hr' with h | h
        · rw [h]
          exact List.mem_append.mpr (Or.inl (List.mem_append.mpr (Or.inr (List.mem_singleton.mpr rfl))))
        · exact List.mem_append.mpr (Or.inr h)
      · rcases List.mem_cons.mp hr' with h | h
        · rw [h]
        · exact (hkeys r' h).1)
    (by
      show ¬ TaskModel.count_resource_refs
        { m.db with
          resources := (m.db.resources ++ [r]) ++ rest,
          preprocTasks := m.db.preprocTasks ++ [createdTask m eid r path pm],
          nextPreprocTaskId := m.db.nextPreprocTaskId + 1,
          clock := m.db.clock + 1 } r.base r.hash = 0
      unfold TaskModel.count_resource_refs
      simp only [List.filter_append, List.length_append, hf1, hf2]
      simp [createdTask])
  have hresfinal : (((m.db.resources ++ [r]) ++ rest).filter
      (removedKeyPred r.base (r :: rest))) = m.db.resources := by
    rw [List.filter_append, List.filter_append]
    have hold : m.db.resources.filter (removedKeyPred r.base (r :: rest)) =
        m.db.resources := by
      rw [List.filter_eq_self]
      intro x hx
      unfold removedKeyPred
      simp only [decide_eq_true_eq, List.map_cons, List.mem_cons, List.mem_map]
      rintro ⟨hb, he | ⟨r', hr', he⟩⟩
      · exact hfresh r (List.mem_cons_self r rest) x hx ⟨hb, he⟩
      · exact hfresh r' (List.mem_cons_of_mem r hr') x hx ⟨hb, he.symm⟩
    have hr1 : ([r].filter (removedKeyPred r.base (r :: rest))) = [] := by
      unfold removedKeyPred
      simp
    have hr2 : (rest.filter (removedKeyPred r.base (r :: rest))) = [] := by
      rw [List.filter_eq_nil_iff]
      intro x hx
      unfold removedKeyPred
      simp only [decide_eq_true_eq, decide_not, Bool.not_eq_true', Bool.not_eq_false]
      refine ⟨(hkeys x hx).1, ?_⟩
      simp only [List.map_cons, List.mem_cons, List.mem_map]
      exact Or.inr ⟨x, hx, rfl⟩
    rw [hold, hr1, hr2]
    simp
  refine ⟨{ m with
      db := { m.db with
        resources := m.db.resources,
        preprocTasks := m.db.preprocTasks ++ [createdTask m eid r path pm],
        nextPreprocTaskId := m.db.nextPreprocTaskId + 1,
        clock := m.db.clock + 1 },
      preprocQueue := m.preprocQueue ++ [createdTask m eid r path pm],
      removedEvents := StateMachine.removeFirstWithHash m.removedEvents r.hash },
    ?_, rfl, ?_, rfl, rfl, rfl, rfl, rfl,
    removeFirstWithHash_none m.removedEvents r.hash hev, hstate⟩
  · rw [List.foldlM_cons, hput1]
    show ((rest.foldlM (fun acc x => StateMachine.put_resource env acc eid x path) _).bind _) = _
    rw [hputs]
    show ((r :: rest).foldlM (fun acc x => StateMachine.remove_resource env acc eid x) _) = _
    rw [hremoves]
    show Except.ok _ = Except.ok _
    rw [show ((({ m with
      db := { m.db with
        resources := (m.db.resources ++ [r]) ++ rest,
        preprocTasks := m.db.preprocTasks ++ [createdTask m eid r path pm],
        nextPreprocTaskId := m.db.nextPreprocTaskId + 1,
        clock := m.db.clock + 1 },
      preprocQueue := m.preprocQueue ++ [createdTask m eid r path pm],
      removedEvents := StateMachine.removeFirstWithHash m.removedEvents r.hash } : Machine)).db.resources.filter
        (removedKeyPred r.base (r :: rest))) =
      (((m.db.resources ++ [r]) ++ rest).filter (removedKeyPred r.base (r :: rest))) from rfl]
    rw [hresfinal]
  · unfold TaskModel.get_preproc_tasks_of_hash
    show ((m.db.preprocTasks ++ [createdTask m eid r path pm]).filter
      (fun t => t.base = r.base ∧ t.resHash = r.hash)).length = 1
    rw [List.filter_append, hf1]
    simp [createdTask]

/-- Witness for C4_amended: in scenario S2 with N = 2 copies of hash 170
(rows rid 1 and rid 2), putting both then removing both in one SCANNING
phase leaves exactly the one preprocessing task created by the first put and
no removed-resource submission for the hash. -/
theorem C4_amended_witness :
    ScenarioS2.mScan.state = SMState.SCANNING ∧
    StateMachine.resource_hash_refs ScenarioS2.mScan.db rsrc1.base rsrc1.hash = 0 ∧
    (∃ mF,
      ((([rsrc1, rsrc2].foldlM
          (fun acc x => StateMachine.put_resource env1 acc 7 x 3) ScenarioS2.mScan).bind
        (fun mm => [rsrc1, rsrc2].foldlM
          (fun acc x => StateMachine.remove_resource env1 acc 7 x) mm)) =
        Except.ok mF) ∧
      mF.db.preprocTasks = ScenarioS2.mScan.db.preprocTasks ++
        [createdTask ScenarioS2.mScan 7 rsrc1 3 100] ∧
      (TaskModel.get_preproc_tasks_of_hash mF.db rsrc1.base rsrc1.hash).length = 1 ∧
      mF.db.resources = ScenarioS2.mScan.db.resources ∧
      mF.db.documents = ScenarioS2.mScan.db.documents ∧
      mF.db.documentRefs = ScenarioS2.mScan.db.documentRefs ∧
      mF.db.indexTasks = ScenarioS2.mScan.db.indexTasks ∧
      mF.indexQueue = ScenarioS2.mScan.indexQueue ∧
      mF.removedEvents.filter (fun e => e.hash = rsrc1.hash) = [] ∧
      mF.state = SMState.SCANNING) := by
  exact ⟨by decide, by decide,
    C4_amended env1 ScenarioS2.mScan rsrc1 [rsrc2] 7 3 100
      (by decide) (by decide) (by decide) (by decide)
      (by decide) (by decide) (by decide)⟩
